import Mathlib

/-!
Shallow embedding of the asset-manager / forward-renderer core of the
delta engine (src/src/asset_manager*.rs, src/src/render.rs).

Modelling conventions:
* f32 scalars are modelled as rationals (Rat); every f32 operation the
  embedded code performs on them (copying, comparison, min/max) is exact
  on rationals.  The f32 infinities used as fold seeds for bounding boxes
  are modelled by the sentinel constants F32_INFINITY and F32_NEG_INFINITY,
  which dominate every finite input.  The f32 cosine used for spot lights
  and the view-projection matrix construction are not representable and
  are passed in as environment parameters.
* usize / u32 counters are modelled as Nat; the one deliberate truncation
  in the source, the cast of an index value to u16, is modelled explicitly
  as reduction mod 65536.
* Rust panics (expect, unwrap, assert, explicit panic) are modelled by
  Option: a function that can panic returns none in exactly the panicking
  executions.
* GPU device/queue objects are modelled by an allocation counter plus a
  store from buffer ids to typed buffer contents carried inside the
  asset-manager state; wgpu buffer handles are the Nat ids.
* The glTF importer reads the file system; it is modelled as a record of
  pure functions (an environment) with the signatures of
  GltfImporter::load_mesh / load_material / load_texture / load_sampler.
-/

/-- Pixel formats used by the embedded code (wgpu TextureFormat values that occur in the source). -/
inductive TexFormat where
  | rgba8UnormSrgb
  | rgba8Unorm
  | depth32Float
deriving DecidableEq

/-- Index width of a mesh index buffer (wgpu IndexFormat). -/
inductive IndexFormat where
  | uint16
  | uint32
deriving DecidableEq

/-- Engine-native sampler address modes (asset_manager/texture.rs). -/
inductive AddressMode where
  | ClampToEdge
  | MirrorRepeat
  | Repeat
deriving DecidableEq

/-- Engine-native sampler filter modes (asset_manager/texture.rs). -/
inductive FilterMode where
  | Nearest
  | Linear
deriving DecidableEq

/-- wgpu-side address modes (image of the wrap translation in get_sampler). -/
inductive WAddressMode where
  | ClampToEdge
  | MirrorRepeat
  | Repeat
deriving DecidableEq

/-- wgpu-side filter modes (image of the filter translation in get_sampler). -/
inductive WFilterMode where
  | Nearest
  | Linear
deriving DecidableEq

/-- Engine-native sampler description produced by the importer (asset_manager/texture.rs, struct Sampler). -/
structure Sampler where
  address_mode_u : AddressMode
  address_mode_v : AddressMode
  address_mode_w : AddressMode
  mag_filter : FilterMode
  min_filter : FilterMode
  mipmap_filter : FilterMode
deriving DecidableEq

/-- A created wgpu sampler object: the descriptor fields the source sets.
compare models the optional comparison function (set only for the dummy depth sampler). -/
structure WSampler where
  address_mode_u : WAddressMode
  address_mode_v : WAddressMode
  address_mode_w : WAddressMode
  mag_filter : WFilterMode
  min_filter : WFilterMode
  mipmap_filter : WFilterMode
  compare : Bool
deriving DecidableEq

/-- Default wgpu sampler descriptor (wgpu SamplerDescriptor::default()). -/
def WSampler.default : WSampler :=
  { address_mode_u := WAddressMode.ClampToEdge
    address_mode_v := WAddressMode.ClampToEdge
    address_mode_w := WAddressMode.ClampToEdge
    mag_filter := WFilterMode.Nearest
    min_filter := WFilterMode.Nearest
    mipmap_filter := WFilterMode.Nearest
    compare := false }

/-- Translation of an engine sampler into a wgpu sampler, mirroring the wrap and filter closures inside AssetManager::get_sampler. -/
def wgpuSamplerOf (s : Sampler) : WSampler :=
  let wrap : AddressMode → WAddressMode := fun m =>
    match m with
    | AddressMode.ClampToEdge => WAddressMode.ClampToEdge
    | AddressMode.MirrorRepeat => WAddressMode.MirrorRepeat
    | AddressMode.Repeat => WAddressMode.Repeat
  let filter : FilterMode → WFilterMode := fun f =>
    match f with
    | FilterMode.Nearest => WFilterMode.Nearest
    | FilterMode.Linear => WFilterMode.Linear
  { address_mode_u := wrap s.address_mode_u
    address_mode_v := wrap s.address_mode_v
    address_mode_w := wrap s.address_mode_w
    mag_filter := filter s.mag_filter
    min_filter := filter s.min_filter
    mipmap_filter := filter s.mipmap_filter
    compare := false }

/-- A created wgpu texture resource: size, format and the uploaded pixel data. -/
structure TexRes where
  width : Nat
  height : Nat
  format : TexFormat
  pixels : List Nat
deriving DecidableEq

/-- Decoded image data returned by the importer (asset_manager/texture.rs, struct Texture). -/
structure Texture where
  pixels : List Nat
  width : Nat
  height : Nat
  sampler : Option Nat
deriving DecidableEq

/-- Texture cache key: source key string plus pixel format (asset_manager/texture.rs, struct TextureKey). -/
structure TextureKey where
  key : String
  format : TexFormat
deriving DecidableEq

/-- A GPU texture entry of the texture registry (asset_manager/texture.rs, struct GpuTexture); the view is a derived object and is not modelled separately. -/
structure GpuTexture where
  tex : TexRes
  sampler : Nat
deriving DecidableEq

/-- The four-plus-one texture handles recorded per material slot (asset_manager/texture.rs, struct TextureGroup). -/
structure TextureGroup where
  base_color : Nat
  metallic_roughness : Nat
  normal : Nat
  emissive : Nat
  occlusion : Nat
deriving DecidableEq

/-- Engine-native material as decoded by the importer (asset_manager/material.rs, struct Material). -/
structure Material where
  base_color_factor : Rat × Rat × Rat × Rat
  metallic_factor : Rat
  roughness_factor : Rat
  emissive_factor : Rat × Rat × Rat
  alpha_cutoff : Rat
  double_sided : Bool
  base_color_texture : Option Nat
  metallic_roughness_texture : Option Nat
  normal_texture : Option Nat
  emissive_texture : Option Nat
deriving DecidableEq

/-- Packed material uniform record (asset_manager/material.rs, struct MaterialUniform); the explicit padding word is a layout artifact and is dropped. -/
structure MaterialUniform where
  base_color_factor : Rat × Rat × Rat × Rat
  emissive_factor : Rat × Rat × Rat
  metallic_factor : Rat
  roughness_factor : Rat
  alpha_cutoff : Rat
  double_sided : Nat
deriving DecidableEq

/-- The Default impl for MaterialUniform in the source. -/
def MaterialUniform.default : MaterialUniform :=
  { base_color_factor := (0, 1, 1/2, 1)
    emissive_factor := (0, 5, 5/2)
    metallic_factor := -1
    roughness_factor := -1
    alpha_cutoff := -1
    double_sided := 12345 }

/-- Light kinds (asset_manager/light.rs). -/
inductive LightKind where
  | Point
  | Directional
  | Spot
deriving DecidableEq

/-- A CPU-side light (asset_manager/light.rs, struct Light). -/
structure Light where
  kind : LightKind
  position : Rat × Rat × Rat
  direction : Rat × Rat × Rat
  color : Rat × Rat × Rat
  range : Rat
  inner_angle : Rat
  outer_angle : Rat
deriving DecidableEq

/-- The Default impl for Light in the source. -/
def Light.default : Light :=
  { kind := LightKind.Point
    position := (0, 0, 0)
    direction := (0, -1, 0)
    color := (1, 1, 1)
    range := 10
    inner_angle := 1/2
    outer_angle := 7/10 }

/-- GPU-side light uniform (asset_manager/light.rs, struct LightUniform); padding words dropped. -/
structure LightUniform where
  position : Rat × Rat × Rat
  color : Rat × Rat × Rat
  direction : Rat × Rat × Rat
  light_type : Nat
  range : Rat
  inner_cos : Rat
  outer_cos : Rat
deriving DecidableEq

/-- The From impl converting a Light to its uniform form; cosf is the (unrepresentable) f32 cosine, supplied by the environment. -/
def LightUniform.ofLight (cosf : Rat → Rat) (l : Light) : LightUniform :=
  let kind : Nat :=
    match l.kind with
    | LightKind.Point => 0
    | LightKind.Directional => 1
    | LightKind.Spot => 2
  { position := l.position
    color := l.color
    direction := l.direction
    light_type := kind
    range := l.range
    inner_cos := cosf l.inner_angle
    outer_cos := cosf l.outer_angle }

/-- Light count record uploaded each frame (asset_manager/light.rs, struct LightParams); padding dropped. -/
structure LightParams where
  count : Nat
deriving DecidableEq

/-- Maximum supported light count (asset_manager/light.rs). -/
def MAX_LIGHTS : Nat := 16

/-- Material slot capacity (asset_manager/material.rs). -/
def MAX_MAT : Nat := 1024

/-- Byte size of one MatId record: a u32 id plus 63 u32 padding words (asset_manager/material.rs, struct MatId). -/
def MAT_ID_SIZE : Nat := 256

/-- A mesh vertex (asset_manager/mesh.rs, struct Vertex). -/
structure Vertex where
  position : Rat × Rat × Rat
  uv : Rat × Rat
  normal : Rat × Rat × Rat
  tangent : Rat × Rat × Rat × Rat
deriving DecidableEq

/-- One index triangle (asset_manager/mesh.rs, struct Index). -/
structure Index where
  a : Nat
  b : Nat
  c : Nat
deriving DecidableEq

/-- One drawable primitive decoded from the source file (asset_manager/mesh.rs, struct Primitive). -/
structure Primitive where
  vertex : List Vertex
  index : List Index
  material : Option Nat
deriving DecidableEq

/-- Per-primitive draw range recorded in a mesh (asset_manager/mesh.rs, struct PrimitiveRange). -/
structure PrimitiveRange where
  first_index : Nat
  index_count : Nat
  base_vertex : Int
  aabb_min : Rat × Rat × Rat
  aabb_max : Rat × Rat × Rat
  material : Nat
deriving DecidableEq

/-- A mesh record (asset_manager/mesh.rs, struct Mesh); buffer fields hold buffer ids. -/
structure Mesh where
  name : Option String
  primitives : List PrimitiveRange
  vertex_buf : Nat
  index_buf : Option Nat
  index_format : Option IndexFormat
  vertex_count : Nat
  index_count : Nat
deriving DecidableEq

/-- Typed contents of a GPU buffer as written by the embedded code. -/
inductive BufData where
  | verts : List Vertex → BufData
  | idx16 : List Nat → BufData
  | idx32 : List Nat → BufData
  | mats : List (Nat × MaterialUniform) → BufData
deriving DecidableEq

/-- The glTF importer as an environment of pure functions (asset_manager/importer.rs); a call that would panic inside the importer is outside the model, the environment supplies whatever the importer returns. -/
structure Importer where
  load_mesh : String → Option String → List Primitive
  load_material : String → Option String → Material
  load_texture : String → Nat → Texture
  load_sampler : String → Nat → Sampler

/-- The asset manager state (asset_manager.rs, struct AssetManager).  The
texture/sampler registry fields (tex_by_key, textures, samplers,
sampler_by_name, sampler_default, tex_by_mat) are declared in a superseded
revision outside src, but all their uses are in the src functions embedded
below; they are modelled as used there.  Caches are association lists with
newest binding first; slotmap/arena inserts allocate from the companion
counter, modelling the source's guarantee that keys are fresh. -/
structure AssetManager where
  importer : Importer
  nextBufId : Nat
  buffers : List (Nat × BufData)
  meshes_by_name : List (String × Nat)
  meshes : List (Nat × Mesh)
  nextMeshId : Nat
  mat_buffer : Nat
  mat_free : List Nat
  mat_by_name : List (String × Nat)
  tex_by_mat : List (Nat × TextureGroup)
  tex_by_key : List (TextureKey × Nat)
  textures : List (Nat × GpuTexture)
  nextTexId : Nat
  sampler_by_name : List (String × Nat)
  samplers : List (Nat × WSampler)
  nextSamplerId : Nat
  sampler_default : Nat
  color_textures : List TexRes
  data_textures : List TexRes
  depth_textures : List TexRes
  color_samplers : List WSampler
  data_samplers : List WSampler
  depth_samplers : List WSampler

/-- First-match association-list lookup (the HashMap/SlotMap get of the source). -/
def alookup {α β : Type} [DecidableEq α] : List (α × β) → α → Option β
  | [], _ => none
  | (k, v) :: rest, a => if a = k then some v else alookup rest a

/-- Sentinel dominating every finite f32 value (f32::INFINITY as a fold seed). -/
def F32_INFINITY : Rat := 2 ^ 128

/-- Sentinel dominated by every finite f32 value (f32::NEG_INFINITY as a fold seed). -/
def F32_NEG_INFINITY : Rat := -(2 ^ 128)

/-- Componentwise minimum of two 3-vectors, as the per-component compare-and-assign loop in set_mesh. -/
def compMin (m p : Rat × Rat × Rat) : Rat × Rat × Rat :=
  (min m.1 p.1, min m.2.1 p.2.1, min m.2.2 p.2.2)

/-- Componentwise maximum of two 3-vectors, as the per-component compare-and-assign loop in set_mesh. -/
def compMax (m p : Rat × Rat × Rat) : Rat × Rat × Rat :=
  (max m.1 p.1, max m.2.1 p.2.1, max m.2.2 p.2.2)

/-- The AABB fold over a primitive's vertices (the for v loop of set_mesh / rewrite_mesh). -/
def aabbFold : List Vertex → (Rat × Rat × Rat) → (Rat × Rat × Rat) → (Rat × Rat × Rat) × (Rat × Rat × Rat)
  | [], mn, mx => (mn, mx)
  | v :: rest, mn, mx => aabbFold rest (compMin mn v.position) (compMax mx v.position)

/-- AABB of a vertex list, seeded with the f32 infinities as in the source. -/
def aabbOf (vs : List Vertex) : (Rat × Rat × Rat) × (Rat × Rat × Rat) :=
  aabbFold vs (F32_INFINITY, F32_INFINITY, F32_INFINITY)
    (F32_NEG_INFINITY, F32_NEG_INFINITY, F32_NEG_INFINITY)

/-- Key splitter for mesh/material keys (asset_manager.rs, AssetManager::split_key): splitn(2, hash) semantics over the character list. -/
def splitKeyChars : List Char → List Char × Option (List Char)
  | [] => ([], none)
  | c :: rest =>
      if c = '#' then ([], some rest)
      else
        let (p, s) := splitKeyChars rest
        (c :: p, s)

/-- split_key of the source: path before the first hash, optional selector after it. -/
def split_key (key : String) : String × Option String :=
  let (p, s) := splitKeyChars key.data
  (String.mk p, s.map String.mk)

/-- Decimal parse of a character list; none when empty or a non-digit occurs. -/
def charsToNatAux : List Char → Nat → Option Nat
  | [], acc => some acc
  | c :: rest, acc =>
      if c.isDigit then charsToNatAux rest (acc * 10 + (c.toNat - 48)) else none

/-- Decimal parse entry point; none on the empty string. -/
def charsToNat? : List Char → Option Nat
  | [] => none
  | c :: rest => charsToNatAux (c :: rest) 0

/-- Modelled from the spec: the texture/sampler key splitter split_path, whose
definition is not under src (only its callers in get_texture / get_sampler
are).  Per the spec, texture and sampler keys have the form path#index with
index always numeric; split_path returns the pair on a well-formed key and
none otherwise (the callers expect on the result, i.e. panic). -/
def split_path (key : String) : Option (String × Nat) :=
  match splitKeyChars key.data with
  | (_, none) => none
  | (p, some s) => (charsToNat? s).map (fun n => (String.mk p, n))

/-- Allocate a fresh GPU buffer with initial contents (wgpu create_buffer_init against the device owned by the manager). -/
def createBufferInit (am : AssetManager) (d : BufData) : Nat × AssetManager :=
  (am.nextBufId,
   { am with buffers := (am.nextBufId, d) :: am.buffers, nextBufId := am.nextBufId + 1 })

/-- Overwrite the contents of an existing GPU buffer (wgpu queue.write_buffer at offset 0 over the whole buffer). -/
def writeBuffer (am : AssetManager) (id : Nat) (d : BufData) : AssetManager :=
  { am with buffers := am.buffers.map (fun p => if p.1 = id then (p.1, d) else p) }

/-- Append one (slot, uniform) record to a material buffer's write log. -/
def matAppend : BufData → Nat → MaterialUniform → BufData
  | BufData.mats ws, i, u => BufData.mats (ws ++ [(i, u)])
  | d, _, _ => d

/-- Record a material-uniform write at slot index idx of the shared material
buffer (queue.write_buffer at byte offset idx * size_of MaterialUniform,
modelled as a write log keyed by slot). -/
def writeMat (am : AssetManager) (bufId idx : Nat) (u : MaterialUniform) : AssetManager :=
  { am with buffers := am.buffers.map (fun p => if p.1 = bufId then (p.1, matAppend p.2 idx u) else p) }

/-- The dummy 1x1 white color texture created at construction. -/
def dummyWhite : TexRes :=
  { width := 1, height := 1, format := TexFormat.rgba8UnormSrgb, pixels := [255, 255, 255, 255] }

/-- The dummy 1x1 flat-normal data texture created at construction. -/
def dummyNormal : TexRes :=
  { width := 1, height := 1, format := TexFormat.rgba8Unorm, pixels := [128, 128, 255, 255] }

/-- The dummy 1x1 depth texture created at construction. -/
def dummyDepth : TexRes :=
  { width := 1, height := 1, format := TexFormat.depth32Float, pixels := [] }

/-- AssetManager::new (asset_manager.rs): creates the shared material buffer,
writes the default material uniform into slot 0, builds the bindless dummy
textures/samplers, and initialises the free-slot list with (1..MAX_MAT).rev().
The device/queue handles are implicit in the state; the importer environment
stands in for GltfImporter::new().  The sampler registry seed (one default
sampler at a known handle) is modelled from the spec, which requires that a
default sampler always exists at a known handle. -/
def AssetManager.new (importer : Importer) : AssetManager :=
  { importer := importer
    nextBufId := 1
    buffers := [(0, BufData.mats [(0, MaterialUniform.default)])]
    meshes_by_name := []
    meshes := []
    nextMeshId := 0
    mat_buffer := 0
    mat_free := ((List.range MAX_MAT).drop 1).reverse
    mat_by_name := []
    tex_by_mat := []
    tex_by_key := []
    textures := []
    nextTexId := 0
    sampler_by_name := []
    samplers := [(0, WSampler.default)]
    nextSamplerId := 1
    sampler_default := 0
    color_textures := [dummyWhite]
    data_textures := [dummyNormal]
    depth_textures := [dummyDepth]
    color_samplers := [WSampler.default]
    data_samplers := [WSampler.default]
    depth_samplers := [{ WSampler.default with compare := true }] }

/-- AssetManager::get_sampler (asset_manager/texture.rs): split the key
(expect, i.e. panic on a malformed key), then entry/or_insert_with on the
sampler cache; on a miss, load the sampler description, create the wgpu
sampler through the wrap/filter translation and register it. -/
def AssetManager.get_sampler (am : AssetManager) (key : String) : Option (Nat × AssetManager) :=
  match split_path key with
  | none => none
  | some (path, selector) =>
    match alookup am.sampler_by_name key with
    | some id => some (id, am)
    | none =>
      let sampler_info := am.importer.load_sampler path selector
      let new_sampler := wgpuSamplerOf sampler_info
      let id := am.nextSamplerId
      some (id,
        { am with
          samplers := (id, new_sampler) :: am.samplers
          nextSamplerId := id + 1
          sampler_by_name := (key, id) :: am.sampler_by_name })

/-- AssetManager::get_texture (asset_manager/texture.rs): cache key is
(key, format); on a miss, split the key (panic if malformed), load the
image, resolve its sampler (default sampler when the image has none),
create the GPU texture with one mip level and the uploaded pixels, and
register it under the composite key. -/
def AssetManager.get_texture (am : AssetManager) (key : String) (format : TexFormat) :
    Option (Nat × AssetManager) :=
  let tex_key : TextureKey := { key := key, format := format }
  match alookup am.tex_by_key tex_key with
  | some id => some (id, am)
  | none =>
    match split_path key with
    | none => none
    | some (path, selector) =>
      let tex_data := am.importer.load_texture path selector
      match (match tex_data.sampler with
             | some sampler_index =>
                 AssetManager.get_sampler am (path ++ "#" ++ Nat.repr sampler_index)
             | none => some (am.sampler_default, am)) with
      | none => none
      | some (sampler_id, am1) =>
        let texture : TexRes :=
          { width := tex_data.width, height := tex_data.height
            format := format, pixels := tex_data.pixels }
        let new_id := am1.nextTexId
        some (new_id,
          { am1 with
            textures := (new_id, { tex := texture, sampler := sampler_id }) :: am1.textures
            nextTexId := new_id + 1
            tex_by_key := (tex_key, new_id) :: am1.tex_by_key })

/-- AssetManager::get_material (asset_manager/material.rs): cache hit returns
immediately; on a miss, import the material, then resolve each of the four
texture references with map followed by unwrap — so an absent reference
panics (none) — then build the uniform record, pop a free slot (panic when
exhausted), record the texture group, write the uniform into the shared
buffer at the slot offset, and register the key. -/
def AssetManager.get_material (am : AssetManager) (name : String) : Option (Nat × AssetManager) :=
  match alookup am.mat_by_name name with
  | some id => some (id, am)
  | none =>
    let path := (split_key name).1
    let material := am.importer.load_material path (split_key name).2
    match material.base_color_texture with
    | none => none
    | some info =>
    match AssetManager.get_texture am (path ++ "#" ++ Nat.repr info) TexFormat.rgba8UnormSrgb with
    | none => none
    | some (base_color_tex, am1) =>
    match material.metallic_roughness_texture with
    | none => none
    | some info2 =>
    match AssetManager.get_texture am1 (path ++ "#" ++ Nat.repr info2) TexFormat.rgba8Unorm with
    | none => none
    | some (metallic_roughness_tex, am2) =>
    match material.normal_texture with
    | none => none
    | some info3 =>
    match AssetManager.get_texture am2 (path ++ "#" ++ Nat.repr info3) TexFormat.rgba8Unorm with
    | none => none
    | some (normal_tex, am3) =>
    match material.emissive_texture with
    | none => none
    | some info4 =>
    match AssetManager.get_texture am3 (path ++ "#" ++ Nat.repr info4) TexFormat.rgba8UnormSrgb with
    | none => none
    | some (emissive_tex, am4) =>
    let uniform : MaterialUniform :=
      { base_color_factor := material.base_color_factor
        metallic_factor := material.metallic_factor
        roughness_factor := material.roughness_factor
        emissive_factor := material.emissive_factor
        alpha_cutoff := material.alpha_cutoff
        double_sided := if material.double_sided then 1 else 0 }
    match am4.mat_free.getLast? with
    | none => none
    | some idx =>
      let am5 : AssetManager :=
        { am4 with
          mat_free := am4.mat_free.dropLast
          tex_by_mat :=
            (idx,
             { base_color := base_color_tex
               metallic_roughness := metallic_roughness_tex
               normal := normal_tex
               emissive := emissive_tex
               occlusion := normal_tex }) :: am4.tex_by_mat }
      let am6 := writeMat am5 am5.mat_buffer idx uniform
      some (idx, { am6 with mat_by_name := (name, idx) :: am6.mat_by_name })

/-- AssetManager::mesh (asset_manager/mesh.rs): read access to a mesh record by id. -/
def AssetManager.mesh (am : AssetManager) (key : Nat) : Option Mesh :=
  alookup am.meshes key

/-- The flattening loop of AssetManager::set_mesh (asset_manager/mesh.rs):
threads the accumulated flat vertex list, flat u32 index list (each local
index offset by the running vertex base), primitive ranges and the running
base vertex through the primitive list. -/
def buildLoop : List Primitive → Nat → List Vertex → List Nat → List PrimitiveRange →
    List Vertex × List Nat × List PrimitiveRange × Nat
  | [], base, fv, fi, rs => (fv, fi, rs, base)
  | prim :: rest, base, fv, fi, rs =>
      let vcount := prim.vertex.length
      let fv1 := fv ++ prim.vertex
      let mnmx := aabbOf prim.vertex
      let first_index := fi.length
      let tri := prim.index.flatMap (fun t => [base + t.a, base + t.b, base + t.c])
      let fi1 := fi ++ tri
      let index_count := prim.index.length * 3
      buildLoop rest (base + vcount) fv1 fi1
        (rs ++ [{ first_index := first_index
                  index_count := index_count
                  base_vertex := (base : Int)
                  aabb_min := mnmx.1
                  aabb_max := mnmx.2
                  material := 0 }])

/-- AssetManager::set_mesh (asset_manager/mesh.rs): flatten the primitives,
upload the vertex buffer, choose the index width (u16 when the total vertex
count is at most 65536 and every flattened index value is below 65536, else
u32, and no index buffer at all when there are no indices), upload the index
buffer, record the mesh and register its name. -/
def AssetManager.set_mesh (am : AssetManager) (primitives : List Primitive) (name : String) :
    Nat × AssetManager :=
  let built := buildLoop primitives 0 [] [] []
  let flat_vertices := built.1
  let flat_indices_u32 := built.2.1
  let prim_ranges := built.2.2.1
  let base_vertex := built.2.2.2
  let vb := createBufferInit am (BufData.verts flat_vertices)
  let am1 := vb.2
  let ibres :
      Option Nat × Option IndexFormat × AssetManager :=
    if flat_indices_u32.isEmpty then (none, none, am1)
    else
      let can_u16 := decide (base_vertex ≤ 65536) &&
        flat_indices_u32.all (fun i => decide (i < 65536))
      if can_u16 then
        let ib := createBufferInit am1 (BufData.idx16 (flat_indices_u32.map (fun i => i % 65536)))
        (some ib.1, some IndexFormat.uint16, ib.2)
      else
        let ib := createBufferInit am1 (BufData.idx32 flat_indices_u32)
        (some ib.1, some IndexFormat.uint32, ib.2)
  let am2 := ibres.2.2
  let mesh : Mesh :=
    { name := some name
      primitives := prim_ranges
      vertex_buf := vb.1
      index_buf := ibres.1
      index_format := ibres.2.1
      vertex_count := base_vertex
      index_count := flat_indices_u32.length }
  let id := am2.nextMeshId
  (id,
   { am2 with
     meshes := (id, mesh) :: am2.meshes
     nextMeshId := id + 1
     meshes_by_name := (name, id) :: am2.meshes_by_name })

/-- Update the mesh stored under a given id (the slotmap get_mut followed by field assignment). -/
def updateMeshAt (am : AssetManager) (mesh_id : Nat) (m : Mesh) : AssetManager :=
  { am with meshes := am.meshes.map (fun p => if p.1 = mesh_id then (p.1, m) else p) }

/-- AssetManager::set_mat (asset_manager/mesh.rs): point-update of one
primitive's material reference; panics (none) when the mesh id is unknown or
the primitive index is out of range. -/
def AssetManager.set_mat (am : AssetManager) (mesh_id idx mat_id : Nat) : Option AssetManager :=
  match alookup am.meshes mesh_id with
  | some mesh =>
      if h : idx < mesh.primitives.length then
        let p := mesh.primitives.get ⟨idx, h⟩
        some (updateMeshAt am mesh_id
          { mesh with primitives := mesh.primitives.set idx { p with material := mat_id } })
      else none
  | none => none

/-- The material-resolution loop of AssetManager::get_mesh: for each imported
primitive in order, resolve its material selector through get_material (or
take slot 0 when absent) and write it into the corresponding primitive range
with set_mat. -/
def matLoop (id : Nat) (path : String) :
    List Primitive → Nat → AssetManager → Option (Nat × AssetManager)
  | [], _, am => some (id, am)
  | prim :: rest, idx, am =>
      match (match prim.material with
             | some mat => AssetManager.get_material am (path ++ "#" ++ Nat.repr mat)
             | none => some (0, am)) with
      | none => none
      | some (material, am1) =>
          match AssetManager.set_mat am1 id idx material with
          | none => none
          | some am2 => matLoop id path rest (idx + 1) am2

/-- AssetManager::get_mesh (asset_manager/mesh.rs): cache hit by name returns
immediately; otherwise import the primitives, build the mesh with set_mesh,
then resolve per-primitive materials. -/
def AssetManager.get_mesh (am : AssetManager) (name : String) : Option (Nat × AssetManager) :=
  match alookup am.meshes_by_name name with
  | some id => some (id, am)
  | none =>
    let ps := split_key name
    let primitives := am.importer.load_mesh ps.1 ps.2
    let idam := AssetManager.set_mesh am primitives name
    matLoop idam.1 ps.1 primitives 0 idam.2

/-- The first flattening loop of AssetManager::rewrite_mesh: accumulates the
flat vertices, the base-offset flat indices and the total vertex count. -/
def rwFlatten : List Primitive → Nat → List Vertex → List Nat →
    List Vertex × List Nat × Nat
  | [], base, fv, fi => (fv, fi, base)
  | prim :: rest, base, fv, fi =>
      rwFlatten rest (base + prim.vertex.length) (fv ++ prim.vertex)
        (fi ++ prim.index.flatMap (fun t => [base + t.a, base + t.b, base + t.c]))

/-- The second loop of AssetManager::rewrite_mesh: rebuilds the primitive
ranges (with consecutive first_index / base_vertex and default material 0). -/
def rwRanges : List Primitive → Nat → Int → List PrimitiveRange
  | [], _, _ => []
  | prim :: rest, cur_first_index, cur_base =>
      { first_index := cur_first_index
        index_count := prim.index.length * 3
        base_vertex := cur_base
        aabb_min := (aabbOf prim.vertex).1
        aabb_max := (aabbOf prim.vertex).2
        material := 0 } ::
      rwRanges rest (cur_first_index + prim.index.length * 3) (cur_base + prim.vertex.length)

/-- AssetManager::rewrite_mesh (asset_manager/mesh.rs): look up the mesh
(panic on an invalid id), flatten the new primitives, assert that the total
vertex and index counts match the recorded ones (panic on mismatch, before
any write), then overwrite the vertex buffer and — matching the recorded
index format — the index buffer in place, and replace the primitive ranges. -/
def AssetManager.rewrite_mesh (am : AssetManager) (mesh_id : Nat) (primitives : List Primitive) :
    Option AssetManager :=
  match alookup am.meshes mesh_id with
  | none => none
  | some mesh =>
    let flat := rwFlatten primitives 0 [] []
    let flat_vertices := flat.1
    let flat_indices_u32 := flat.2.1
    let base_vertex := flat.2.2
    if base_vertex = mesh.vertex_count ∧ flat_indices_u32.length = mesh.index_count then
      let am1 := writeBuffer am mesh.vertex_buf (BufData.verts flat_vertices)
      let am2 :=
        match mesh.index_buf with
        | some ib =>
          match mesh.index_format with
          | some IndexFormat.uint16 =>
              writeBuffer am1 ib (BufData.idx16 (flat_indices_u32.map (fun i => i % 65536)))
          | some IndexFormat.uint32 =>
              writeBuffer am1 ib (BufData.idx32 flat_indices_u32)
          | none => am1
        | none => am1
      some (updateMeshAt am2 mesh_id { mesh with primitives := rwRanges primitives 0 0 })
    else none

/-- Camera parameters (render.rs, struct Camera). -/
structure Camera where
  eye : Rat × Rat × Rat
  target : Rat × Rat × Rat
  up : Rat × Rat × Rat
  fov_y_radians : Rat
  z_near : Rat
  z_far : Rat
  aspect : Rat
deriving DecidableEq

/-- Camera uniform uploaded each frame (render.rs, struct CameraUniform); padding dropped; the matrix is whatever the environment's view-projection function yields. -/
structure CameraUniform where
  view_proj : List (List Rat)
  camera_pos : Rat × Rat × Rat
deriving DecidableEq

/-- Environment of f32 operations the model cannot compute exactly: the
cosine used for spot-light cones and the look-at/perspective matrix builder
used for the camera uniform. -/
structure FEnv where
  cosf : Rat → Rat
  view_projf : Camera → List (List Rat)

/-- One draw command handed to render (render.rs, struct RenderCommand). -/
structure RenderCommand where
  mesh_id : Nat
deriving DecidableEq

/-- One indexed draw call as issued in the render pass: the index range, the
base-vertex argument and the dynamic offset used to bind the material-id
table (slot * MAT_ID_SIZE). -/
structure DrawCall where
  first_index : Nat
  index_count : Nat
  base_vertex : Int
  dynamic_offset : Nat
deriving DecidableEq

/-- Outcome of the swapchain acquisition (surface.get_current_texture), an input of each render call. -/
inductive AcquireResult where
  | ok
  | lost
  | outdated
  | outOfMemory
  | timeout
  | other
deriving DecidableEq

/-- What a render call did with the frame: process exit (out of memory),
frame skipped (lost/outdated/timeout/other), or a presented frame with the
draw calls it issued. -/
inductive FrameResult where
  | exited
  | skipped
  | presented : List DrawCall → FrameResult
deriving DecidableEq

/-- The renderer state the render call reads and writes (render.rs, struct
ForwardRenderer): the asset manager, the camera, and the contents of the
camera buffer, light storage buffer and light params buffer.  Pipeline and
bind-group objects are created once and never written, so they are not
carried. -/
structure ForwardRenderer where
  asset : AssetManager
  camera : Camera
  camBuf : CameraUniform
  lightArr : List LightUniform
  lightParams : LightParams

/-- ForwardRenderer::update_camera_buffer (render.rs): rebuild the camera
uniform from the current camera and write it to the camera buffer. -/
def update_camera_buffer (env : FEnv) (r : ForwardRenderer) : ForwardRenderer :=
  { r with camBuf := { view_proj := env.view_projf r.camera, camera_pos := r.camera.eye } }

/-- The draw-submission loop of ForwardRenderer::render: for each command,
resolve its mesh (expect, i.e. panic when the id is unknown), and when the
mesh has both an index buffer and an index format, issue one indexed draw
per primitive range with the dynamic material-id offset. -/
def drawsOf (am : AssetManager) : List RenderCommand → Option (List DrawCall)
  | [] => some []
  | cmd :: rest =>
    match AssetManager.mesh am cmd.mesh_id with
    | none => none
    | some mesh =>
      let ds :=
        match mesh.index_buf, mesh.index_format with
        | some _, some _ =>
            mesh.primitives.map (fun p =>
              { first_index := p.first_index
                index_count := p.index_count
                base_vertex := p.base_vertex
                dynamic_offset := p.material * MAT_ID_SIZE })
        | _, _ => []
      match drawsOf am rest with
      | none => none
      | some more => some (ds ++ more)

/-- ForwardRenderer::render (render.rs): store the camera and update the
camera uniform buffer; acquire the swapchain image — on Lost/Outdated
reconfigure and drop the frame, on OutOfMemory exit the process, on
Timeout or any other error skip the frame; only on success clamp the light
list to MAX_LIGHTS, upload the converted light array (when non-empty) and
the count record, then issue the draws and present.  The Rust function
returns unit; none models a panic inside the call. -/
def render (env : FEnv) (r : ForwardRenderer) (lights : List Light) (cam : Camera)
    (action : List RenderCommand) (acq : AcquireResult) :
    Option (ForwardRenderer × FrameResult) :=
  let r1 := update_camera_buffer env { r with camera := cam }
  match acq with
  | AcquireResult.lost => some (r1, FrameResult.skipped)
  | AcquireResult.outdated => some (r1, FrameResult.skipped)
  | AcquireResult.outOfMemory => some (r1, FrameResult.exited)
  | AcquireResult.timeout => some (r1, FrameResult.skipped)
  | AcquireResult.other => some (r1, FrameResult.skipped)
  | AcquireResult.ok =>
    let count := min lights.length MAX_LIGHTS
    let tmp := (lights.take count).map (LightUniform.ofLight env.cosf)
    let r2 := if 0 < count then { r1 with lightArr := tmp } else r1
    let r3 := { r2 with lightParams := { count := count } }
    match drawsOf r3.asset action with
    | none => none
    | some ds => some (r3, FrameResult.presented ds)

/-- ForwardRenderer::resize (render.rs): no-op when either dimension is zero;
otherwise reconfigure the surface (external), recompute the aspect ratio and
re-upload the camera uniform.  Depth texture recreation is external to the
modelled state. -/
def resize (env : FEnv) (r : ForwardRenderer) (width height : Nat) : ForwardRenderer :=
  if width = 0 ∨ height = 0 then r
  else
    update_camera_buffer env
      { r with camera := { r.camera with aspect := (width : Rat) / (height : Rat) } }

/-- Total vertex count of a primitive list. -/
def totalVerts (ps : List Primitive) : Nat :=
  (ps.map (fun p => p.vertex.length)).sum

/-- Total flattened index count of a primitive list (three per triangle). -/
def totalIdx (ps : List Primitive) : Nat :=
  (ps.map (fun p => p.index.length * 3)).sum

/-- The local (un-offset) flattened index list of one primitive. -/
def localFlat (p : Primitive) : List Nat :=
  p.index.flatMap (fun t => [t.a, t.b, t.c])

/-- The concatenated vertex list of a primitive list. -/
def flatVerts (ps : List Primitive) : List Vertex :=
  ps.flatMap (fun p => p.vertex)

/-- The flattened, base-offset index list of a primitive list starting from a given vertex base. -/
def flatIdxFrom (base : Nat) : List Primitive → List Nat
  | [] => []
  | p :: rest =>
      p.index.flatMap (fun t => [base + t.a, base + t.b, base + t.c]) ++
      flatIdxFrom (base + p.vertex.length) rest

/-- The primitive ranges produced for a primitive list, starting from a given first index and vertex base. -/
def rangesFrom (fIdx base : Nat) : List Primitive → List PrimitiveRange
  | [] => []
  | p :: rest =>
      { first_index := fIdx
        index_count := p.index.length * 3
        base_vertex := (base : Int)
        aabb_min := (aabbOf p.vertex).1
        aabb_max := (aabbOf p.vertex).2
        material := 0 } ::
      rangesFrom (fIdx + p.index.length * 3) (base + p.vertex.length) rest

theorem flatMap_triple_length (l : List Index) (f g h : Index → Nat) :
    (l.flatMap (fun t => [f t, g t, h t])).length = l.length * 3 := by
  induction l with
  | nil => rfl
  | cons x xs ih => simp [List.flatMap_cons, ih, Nat.succ_mul]

theorem localFlat_length (p : Primitive) : (localFlat p).length = p.index.length * 3 := by
  simpa [localFlat] using flatMap_triple_length p.index (fun t => t.a) (fun t => t.b) (fun t => t.c)

theorem localFlat_map_add (base : Nat) (p : Primitive) :
    (localFlat p).map (fun x => base + x) =
      p.index.flatMap (fun t => [base + t.a, base + t.b, base + t.c]) := by
  simp [localFlat, List.map_flatMap]

theorem flatIdxFrom_length (base : Nat) (ps : List Primitive) :
    (flatIdxFrom base ps).length = totalIdx ps := by
  induction ps generalizing base with
  | nil => rfl
  | cons p rest ih =>
      simp only [flatIdxFrom, totalIdx, List.map_cons, List.sum_cons, List.length_append,
        flatMap_triple_length]
      have := ih (base + p.vertex.length)
      simp only [totalIdx] at this
      omega

theorem rangesFrom_length (fIdx base : Nat) (ps : List Primitive) :
    (rangesFrom fIdx base ps).length = ps.length := by
  induction ps generalizing fIdx base with
  | nil => rfl
  | cons p rest ih => simp [rangesFrom, ih]

/-- The flattening loop of set_mesh in closed form: the accumulators are
extended by the flattened vertices, the base-offset flattened indices and the
consecutively numbered primitive ranges, and the running base advances by the
total vertex count. -/
theorem buildLoop_eq (ps : List Primitive) (base : Nat) (fv : List Vertex)
    (fi : List Nat) (rs : List PrimitiveRange) :
    buildLoop ps base fv fi rs =
      (fv ++ flatVerts ps, fi ++ flatIdxFrom base ps,
       rs ++ rangesFrom fi.length base ps, base + totalVerts ps) := by
  induction ps generalizing base fv fi rs with
  | nil => simp [buildLoop, flatVerts, flatIdxFrom, rangesFrom, totalVerts]
  | cons p rest ih =>
      simp only [buildLoop, ih, flatVerts, flatIdxFrom, rangesFrom, totalVerts,
        List.flatMap_cons, List.map_cons, List.sum_cons, List.append_assoc,
        List.length_append, flatMap_triple_length]
      simp [Prod.ext_iff, List.append_assoc, flatMap_triple_length, Nat.add_assoc]

/-- The first rewrite_mesh loop in closed form. -/
theorem rwFlatten_eq (ps : List Primitive) (base : Nat) (fv : List Vertex) (fi : List Nat) :
    rwFlatten ps base fv fi =
      (fv ++ flatVerts ps, fi ++ flatIdxFrom base ps, base + totalVerts ps) := by
  induction ps generalizing base fv fi with
  | nil => simp [rwFlatten, flatVerts, flatIdxFrom, totalVerts]
  | cons p rest ih =>
      simp only [rwFlatten, ih, flatVerts, flatIdxFrom, totalVerts, List.flatMap_cons,
        List.map_cons, List.sum_cons, List.append_assoc]
      simp [Prod.ext_iff, List.append_assoc, Nat.add_assoc]

/-- The second rewrite_mesh loop produces exactly the ranges of rangesFrom. -/
theorem rwRanges_eq (ps : List Primitive) (fIdx base : Nat) :
    rwRanges ps fIdx (base : Int) = rangesFrom fIdx base ps := by
  induction ps generalizing fIdx base with
  | nil => rfl
  | cons p rest ih =>
      have hcast : (base : Int) + (p.vertex.length : Int) = ((base + p.vertex.length : Nat) : Int) := by
        push_cast
        ring
      simp only [rwRanges, rangesFrom, hcast, ih]

theorem totalIdx_append (a b : List Primitive) :
    totalIdx (a ++ b) = totalIdx a + totalIdx b := by
  simp [totalIdx]

theorem totalVerts_append (a b : List Primitive) :
    totalVerts (a ++ b) = totalVerts a + totalVerts b := by
  simp [totalVerts]

theorem totalIdx_take_succ (ps : List Primitive) (k : Nat) (hk : k < ps.length) :
    totalIdx (ps.take (k + 1)) = totalIdx (ps.take k) + (ps.get ⟨k, hk⟩).index.length * 3 := by
  rw [List.take_succ, totalIdx_append]
  have : ps[k]? = some (ps.get ⟨k, hk⟩) := by
    rw [List.getElem?_eq_getElem hk]
    rfl
  simp [this, totalIdx]

theorem totalIdx_take_mono (ps : List Primitive) (k l : Nat) (h : k ≤ l) :
    totalIdx (ps.take k) ≤ totalIdx (ps.take l) := by
  have h1 : ps.take k = (ps.take l).take k := by
    rw [List.take_take, Nat.min_eq_left h]
  calc totalIdx (ps.take k) = totalIdx ((ps.take l).take k) := by rw [h1]
    _ ≤ totalIdx ((ps.take l).take k) + totalIdx ((ps.take l).drop k) := Nat.le_add_right _ _
    _ = totalIdx (ps.take l) := by rw [← totalIdx_append, List.take_append_drop]

theorem rangesFrom_getElem (ps : List Primitive) (f b k : Nat) (hk : k < ps.length) :
    (rangesFrom f b ps)[k]? =
      some
        { first_index := f + totalIdx (ps.take k)
          index_count := (ps.get ⟨k, hk⟩).index.length * 3
          base_vertex := ((b + totalVerts (ps.take k) : Nat) : Int)
          aabb_min := (aabbOf (ps.get ⟨k, hk⟩).vertex).1
          aabb_max := (aabbOf (ps.get ⟨k, hk⟩).vertex).2
          material := 0 } := by
  induction ps generalizing f b k with
  | nil => exact absurd hk (by simp)
  | cons p rest ih =>
      cases k with
      | zero => simp [rangesFrom, totalIdx, totalVerts]
      | succ k =>
          have hk2 : k < rest.length := by simpa using hk
          simp only [rangesFrom, List.getElem?_cons_succ]
          rw [ih (f + p.index.length * 3) (b + p.vertex.length) k hk2]
          have h1 : totalIdx ((p :: rest).take (k + 1)) =
              p.index.length * 3 + totalIdx (rest.take k) := by
            simp [List.take_cons, totalIdx]
          have h2 : totalVerts ((p :: rest).take (k + 1)) =
              p.vertex.length + totalVerts (rest.take k) := by
            simp [List.take_cons, totalVerts]
          have h3 : (p :: rest).get ⟨k + 1, hk⟩ = rest.get ⟨k, hk2⟩ := rfl
          rw [h1, h2, h3]
          congr 2 <;> omega

theorem totalVerts_take_cons (p : Primitive) (rest : List Primitive) (k : Nat) :
    totalVerts ((p :: rest).take (k + 1)) = p.vertex.length + totalVerts (rest.take k) := by
  simp [List.take_cons, totalVerts]

theorem totalIdx_take_cons (p : Primitive) (rest : List Primitive) (k : Nat) :
    totalIdx ((p :: rest).take (k + 1)) = p.index.length * 3 + totalIdx (rest.take k) := by
  simp [List.take_cons, totalIdx]

theorem flatIdxFrom_getElem (ps : List Primitive) (b k : Nat) (hk : k < ps.length)
    (j : Nat) (hj : j < (localFlat (ps.get ⟨k, hk⟩)).length) :
    (flatIdxFrom b ps)[totalIdx (ps.take k) + j]? =
      some (b + totalVerts (ps.take k) + (localFlat (ps.get ⟨k, hk⟩)).get ⟨j, hj⟩) := by
  induction ps generalizing b k with
  | nil => exact absurd hk (by simp)
  | cons p rest ih =>
      cases k with
      | zero =>
          have hseg : (localFlat p).map (fun x => b + x) =
              p.index.flatMap (fun t => [b + t.a, b + t.b, b + t.c]) :=
            localFlat_map_add b p
          have hj0 : j < (localFlat p).length := hj
          have hjlen : j < (p.index.flatMap (fun t => [b + t.a, b + t.b, b + t.c])).length := by
            rw [← hseg]
            simpa using hj0
          simp only [flatIdxFrom, List.take_zero, totalIdx, List.map_nil, List.sum_nil,
            Nat.zero_add]
          rw [List.getElem?_append_left hjlen, ← hseg, List.getElem?_map,
            List.getElem?_eq_getElem hj0]
          simp [totalVerts]
      | succ k =>
          have hk2 : k < rest.length := by simpa using hk
          have hseglen :
              (p.index.flatMap (fun t => [b + t.a, b + t.b, b + t.c])).length =
                p.index.length * 3 :=
            flatMap_triple_length p.index _ _ _
          have hidx : totalIdx ((p :: rest).take (k + 1)) + j =
              (p.index.flatMap (fun t => [b + t.a, b + t.b, b + t.c])).length +
                (totalIdx (rest.take k) + j) := by
            rw [hseglen, totalIdx_take_cons]
            omega
          simp only [flatIdxFrom]
          rw [hidx, List.getElem?_append_right (Nat.le_add_right _ _), Nat.add_sub_cancel_left]
          have h3 : (p :: rest).get ⟨k + 1, hk⟩ = rest.get ⟨k, hk2⟩ := rfl
          rw [ih (b + p.vertex.length) k hk2 (by rw [← h3]; exact hj)]
          rw [totalVerts_take_cons]
          have hg : (localFlat (rest.get ⟨k, hk2⟩)).get ⟨j, by rw [← h3]; exact hj⟩ =
              (localFlat ((p :: rest).get ⟨k + 1, hk⟩)).get ⟨j, hj⟩ := rfl
          rw [hg]
          congr 1
          omega

theorem alookup_cons_self {α β : Type} [DecidableEq α] (k : α) (v : β) (l : List (α × β)) :
    alookup ((k, v) :: l) k = some v := by
  simp [alookup]

theorem alookup_cons_ne {α β : Type} [DecidableEq α] (k a : α) (v : β) (l : List (α × β))
    (h : a ≠ k) : alookup ((k, v) :: l) a = alookup l a := by
  simp [alookup, h]

theorem alookup_mapUpdate {α β : Type} [DecidableEq α] (l : List (α × β)) (i : α) (f : β → β)
    (j : α) :
    alookup (l.map (fun p => if p.1 = i then (p.1, f p.2) else p)) j =
      if j = i then (alookup l j).map f else alookup l j := by
  induction l with
  | nil => simp [alookup]
  | cons p rest ih =>
      obtain ⟨a, b⟩ := p
      simp only [List.map_cons]
      by_cases h1 : a = i
      · subst h1
        simp only [if_pos rfl]
        by_cases h2 : j = a
        · subst h2
          simp [alookup]
        · simp [alookup, h2, ih]
      · simp only [if_neg h1]
        by_cases h2 : j = a
        · subst h2
          simp [alookup, h1]
        · simp [alookup, h2, ih]

/-- Fields of the asset manager that a successful get_sampler call leaves untouched. -/
theorem get_sampler_preserves (am am' : AssetManager) (key : String) (id : Nat)
    (h : AssetManager.get_sampler am key = some (id, am')) :
    am'.importer = am.importer ∧ am'.nextBufId = am.nextBufId ∧ am'.buffers = am.buffers ∧
    am'.meshes_by_name = am.meshes_by_name ∧ am'.meshes = am.meshes ∧
    am'.nextMeshId = am.nextMeshId ∧ am'.mat_buffer = am.mat_buffer ∧
    am'.mat_free = am.mat_free ∧ am'.mat_by_name = am.mat_by_name ∧
    am'.tex_by_mat = am.tex_by_mat ∧ am'.tex_by_key = am.tex_by_key ∧
    am'.textures = am.textures ∧ am'.nextTexId = am.nextTexId := by
  unfold AssetManager.get_sampler at h
  split at h
  · exact absurd h (by simp)
  · split at h
    · obtain ⟨rfl, rfl⟩ := Prod.mk.injEq .. ▸ Option.some.injEq .. ▸ h
      exact ⟨rfl, rfl, rfl, rfl, rfl, rfl, rfl, rfl, rfl, rfl, rfl, rfl, rfl⟩
    · obtain ⟨rfl, rfl⟩ := Prod.mk.injEq .. ▸ Option.some.injEq .. ▸ h
      exact ⟨rfl, rfl, rfl, rfl, rfl, rfl, rfl, rfl, rfl, rfl, rfl, rfl, rfl⟩

/-- Fields of the asset manager that a successful get_texture call leaves untouched. -/
theorem get_texture_preserves (am am' : AssetManager) (key : String) (fmt : TexFormat) (id : Nat)
    (h : AssetManager.get_texture am key fmt = some (id, am')) :
    am'.importer = am.importer ∧ am'.meshes_by_name = am.meshes_by_name ∧
    am'.meshes = am.meshes ∧ am'.nextMeshId = am.nextMeshId ∧
    am'.mat_buffer = am.mat_buffer ∧ am'.mat_free = am.mat_free ∧
    am'.mat_by_name = am.mat_by_name ∧ am'.tex_by_mat = am.tex_by_mat ∧
    am'.buffers = am.buffers ∧ am'.nextBufId = am.nextBufId := by
  simp only [AssetManager.get_texture] at h
  split at h
  · simp only [Option.some.injEq, Prod.mk.injEq] at h
    obtain ⟨rfl, rfl⟩ := h
    exact ⟨rfl, rfl, rfl, rfl, rfl, rfl, rfl, rfl, rfl, rfl⟩
  · split at h
    · exact absurd h (by simp)
    · split at h
      · exact absurd h (by simp)
      · rename_i sampler_id am1 heq
        simp only [Option.some.injEq, Prod.mk.injEq] at h
        obtain ⟨rfl, rfl⟩ := h
        have ham1 : am1.importer = am.importer ∧ am1.meshes_by_name = am.meshes_by_name ∧
            am1.meshes = am.meshes ∧ am1.nextMeshId = am.nextMeshId ∧
            am1.mat_buffer = am.mat_buffer ∧ am1.mat_free = am.mat_free ∧
            am1.mat_by_name = am.mat_by_name ∧ am1.tex_by_mat = am.tex_by_mat ∧
            am1.buffers = am.buffers ∧ am1.nextBufId = am.nextBufId := by
          split at heq
          · have hp := get_sampler_preserves am am1 _ sampler_id heq
            exact ⟨hp.1, hp.2.2.2.1, hp.2.2.2.2.1, hp.2.2.2.2.2.1,
              hp.2.2.2.2.2.2.1, hp.2.2.2.2.2.2.2.1, hp.2.2.2.2.2.2.2.2.1,
              hp.2.2.2.2.2.2.2.2.2.1, hp.2.2.1, hp.2.1⟩
          · simp only [Option.some.injEq, Prod.mk.injEq] at heq
            obtain ⟨rfl, rfl⟩ := heq
            exact ⟨rfl, rfl, rfl, rfl, rfl, rfl, rfl, rfl, rfl, rfl⟩
        exact ham1

/-- Mesh-side fields of the asset manager that a successful get_material call leaves untouched. -/
theorem get_material_preserves_mesh (am am' : AssetManager) (name : String) (id : Nat)
    (h : AssetManager.get_material am name = some (id, am')) :
    am'.meshes_by_name = am.meshes_by_name ∧ am'.meshes = am.meshes ∧
    am'.nextMeshId = am.nextMeshId ∧ am'.importer = am.importer := by
  simp only [AssetManager.get_material] at h
  split at h
  · simp only [Option.some.injEq, Prod.mk.injEq] at h
    obtain ⟨rfl, rfl⟩ := h
    exact ⟨rfl, rfl, rfl, rfl⟩
  · split at h
    · exact absurd h (by simp)
    · split at h
      · exact absurd h (by simp)
      · rename_i t1 am1 h1
        split at h
        · exact absurd h (by simp)
        · split at h
          · exact absurd h (by simp)
          · rename_i t2 am2 h2
            split at h
            · exact absurd h (by simp)
            · split at h
              · exact absurd h (by simp)
              · rename_i t3 am3 h3
                split at h
                · exact absurd h (by simp)
                · split at h
                  · exact absurd h (by simp)
                  · rename_i t4 am4 h4
                    split at h
                    · exact absurd h (by simp)
                    · rename_i idx hidx
                      simp only [Option.some.injEq, Prod.mk.injEq] at h
                      obtain ⟨rfl, rfl⟩ := h
                      have p1 := get_texture_preserves am am1 _ _ t1 h1
                      have p2 := get_texture_preserves am1 am2 _ _ t2 h2
                      have p3 := get_texture_preserves am2 am3 _ _ t3 h3
                      have p4 := get_texture_preserves am3 am4 _ _ t4 h4
                      refine ⟨?_, ?_, ?_, ?_⟩ <;>
                        simp [writeMat, p1.1, p1.2.1, p1.2.2.1, p1.2.2.2.1,
                          p2.1, p2.2.1, p2.2.2.1, p2.2.2.2.1,
                          p3.1, p3.2.1, p3.2.2.1, p3.2.2.2.1,
                          p4.1, p4.2.1, p4.2.2.1, p4.2.2.2.1]

theorem can16_iff (ps : List Primitive) :
    (decide (totalVerts ps ≤ 65536) &&
      (flatIdxFrom 0 ps).all (fun i => decide (i < 65536))) = true ↔
      (totalVerts ps ≤ 65536 ∧ ∀ i ∈ flatIdxFrom 0 ps, i < 65536) := by
  simp [List.all_eq_true]

/-- Closed form of set_mesh when the flattened index list is empty: one vertex buffer, no index buffer. -/
theorem set_mesh_eq_noidx (am : AssetManager) (ps : List Primitive) (name : String)
    (h : flatIdxFrom 0 ps = []) :
    AssetManager.set_mesh am ps name =
      (am.nextMeshId,
       { am with
         nextBufId := am.nextBufId + 1
         buffers := (am.nextBufId, BufData.verts (flatVerts ps)) :: am.buffers
         meshes := (am.nextMeshId,
           { name := some name
             primitives := rangesFrom 0 0 ps
             vertex_buf := am.nextBufId
             index_buf := none
             index_format := none
             vertex_count := totalVerts ps
             index_count := 0 }) :: am.meshes
         nextMeshId := am.nextMeshId + 1
         meshes_by_name := (name, am.nextMeshId) :: am.meshes_by_name }) := by
  simp [AssetManager.set_mesh, buildLoop_eq, createBufferInit, h]

/-- Closed form of set_mesh in the 16-bit branch. -/
theorem set_mesh_eq_u16 (am : AssetManager) (ps : List Primitive) (name : String)
    (hne : flatIdxFrom 0 ps ≠ [])
    (h16 : totalVerts ps ≤ 65536 ∧ ∀ i ∈ flatIdxFrom 0 ps, i < 65536) :
    AssetManager.set_mesh am ps name =
      (am.nextMeshId,
       { am with
         nextBufId := am.nextBufId + 2
         buffers :=
           (am.nextBufId + 1, BufData.idx16 ((flatIdxFrom 0 ps).map (fun i => i % 65536))) ::
           (am.nextBufId, BufData.verts (flatVerts ps)) :: am.buffers
         meshes := (am.nextMeshId,
           { name := some name
             primitives := rangesFrom 0 0 ps
             vertex_buf := am.nextBufId
             index_buf := some (am.nextBufId + 1)
             index_format := some IndexFormat.uint16
             vertex_count := totalVerts ps
             index_count := totalIdx ps }) :: am.meshes
         nextMeshId := am.nextMeshId + 1
         meshes_by_name := (name, am.nextMeshId) :: am.meshes_by_name }) := by
  have hcan : (decide (totalVerts ps ≤ 65536) &&
      (flatIdxFrom 0 ps).all (fun i => decide (i < 65536))) = true := (can16_iff ps).mpr h16
  simp [AssetManager.set_mesh, buildLoop_eq, createBufferInit, hne, hcan, flatIdxFrom_length]

/-- Closed form of set_mesh in the 32-bit branch. -/
theorem set_mesh_eq_u32 (am : AssetManager) (ps : List Primitive) (name : String)
    (hne : flatIdxFrom 0 ps ≠ [])
    (h32 : ¬ (totalVerts ps ≤ 65536 ∧ ∀ i ∈ flatIdxFrom 0 ps, i < 65536)) :
    AssetManager.set_mesh am ps name =
      (am.nextMeshId,
       { am with
         nextBufId := am.nextBufId + 2
         buffers :=
           (am.nextBufId + 1, BufData.idx32 (flatIdxFrom 0 ps)) ::
           (am.nextBufId, BufData.verts (flatVerts ps)) :: am.buffers
         meshes := (am.nextMeshId,
           { name := some name
             primitives := rangesFrom 0 0 ps
             vertex_buf := am.nextBufId
             index_buf := some (am.nextBufId + 1)
             index_format := some IndexFormat.uint32
             vertex_count := totalVerts ps
             index_count := totalIdx ps }) :: am.meshes
         nextMeshId := am.nextMeshId + 1
         meshes_by_name := (name, am.nextMeshId) :: am.meshes_by_name }) := by
  have hcan : (decide (totalVerts ps ≤ 65536) &&
      (flatIdxFrom 0 ps).all (fun i => decide (i < 65536))) = false := by
    rw [← Bool.not_eq_true]
    intro hc
    exact h32 ((can16_iff ps).mp hc)
  simp [AssetManager.set_mesh, buildLoop_eq, createBufferInit, hne, hcan, flatIdxFrom_length]

/-- Fields of the asset manager that a successful set_mat call leaves untouched, and its effect on the mesh table. -/
theorem set_mat_preserves (am am' : AssetManager) (mid idx matid : Nat)
    (h : AssetManager.set_mat am mid idx matid = some am') :
    am'.meshes_by_name = am.meshes_by_name ∧ am'.nextMeshId = am.nextMeshId ∧
    am'.importer = am.importer := by
  simp only [AssetManager.set_mat] at h
  split at h
  · split at h
    · simp only [Option.some.injEq] at h
      subst h
      exact ⟨rfl, rfl, rfl⟩
    · exact absurd h (by simp)
  · exact absurd h (by simp)

/-- The material-resolution loop returns the mesh id it was given and leaves the name cache unchanged. -/
theorem matLoop_preserves (id : Nat) (path : String) (ps : List Primitive) (idx : Nat)
    (am : AssetManager) (idr : Nat) (am' : AssetManager)
    (h : matLoop id path ps idx am = some (idr, am')) :
    idr = id ∧ am'.meshes_by_name = am.meshes_by_name := by
  induction ps generalizing idx am with
  | nil =>
      simp only [matLoop, Option.some.injEq, Prod.mk.injEq] at h
      exact ⟨h.1.symm, by rw [← h.2]⟩
  | cons p rest ih =>
      simp only [matLoop] at h
      split at h
      · exact absurd h (by simp)
      · rename_i material am1 hmat
        split at h
        · exact absurd h (by simp)
        · rename_i am2 hsm
          have hml := ih (idx + 1) am2 h
          have h1 : am1.meshes_by_name = am.meshes_by_name := by
            split at hmat
            · exact (get_material_preserves_mesh am am1 _ _ hmat).1
            · simp only [Option.some.injEq, Prod.mk.injEq] at hmat
              rw [← hmat.2]
          have h2 := set_mat_preserves am1 am2 id idx material hsm
          exact ⟨hml.1, by rw [hml.2, h2.1, h1]⟩

/-- set_mesh registers the new mesh id under the given name, on top of the unchanged name cache. -/
theorem set_mesh_name_cache (am : AssetManager) (ps : List Primitive) (name : String) :
    (AssetManager.set_mesh am ps name).2.meshes_by_name =
      (name, (AssetManager.set_mesh am ps name).1) :: am.meshes_by_name := by
  by_cases h : flatIdxFrom 0 ps = []
  · rw [set_mesh_eq_noidx am ps name h]
  · by_cases h16 : totalVerts ps ≤ 65536 ∧ ∀ i ∈ flatIdxFrom 0 ps, i < 65536
    · rw [set_mesh_eq_u16 am ps name h h16]
    · rw [set_mesh_eq_u32 am ps name h h16]

/-- A successful get_mesh caches its key: calling it again returns the same handle and leaves the state unchanged. -/
theorem get_mesh_idem (am am1 : AssetManager) (k : String) (m : Nat)
    (h : AssetManager.get_mesh am k = some (m, am1)) :
    AssetManager.get_mesh am1 k = some (m, am1) := by
  have hl : alookup am1.meshes_by_name k = some m := by
    simp only [AssetManager.get_mesh] at h
    split at h
    · rename_i id0 heq
      simp only [Option.some.injEq, Prod.mk.injEq] at h
      obtain ⟨rfl, rfl⟩ := h
      exact heq
    · have hml := matLoop_preserves _ _ _ _ _ _ _ h
      obtain ⟨rfl, h2⟩ := hml
      rw [h2, set_mesh_name_cache]
      exact alookup_cons_self _ _ _
  simp [AssetManager.get_mesh, hl]

/-- A successful get_material caches its key: calling it again returns the same handle and leaves the state unchanged. -/
theorem get_material_idem (am am1 : AssetManager) (k : String) (id : Nat)
    (h : AssetManager.get_material am k = some (id, am1)) :
    AssetManager.get_material am1 k = some (id, am1) := by
  have hl : alookup am1.mat_by_name k = some id := by
    simp only [AssetManager.get_material] at h
    split at h
    · rename_i id0 heq
      simp only [Option.some.injEq, Prod.mk.injEq] at h
      obtain ⟨rfl, rfl⟩ := h
      exact heq
    · split at h
      · exact absurd h (by simp)
      · split at h
        · exact absurd h (by simp)
        · split at h
          · exact absurd h (by simp)
          · split at h
            · exact absurd h (by simp)
            · split at h
              · exact absurd h (by simp)
              · split at h
                · exact absurd h (by simp)
                · split at h
                  · exact absurd h (by simp)
                  · split at h
                    · exact absurd h (by simp)
                    · split at h
                      · exact absurd h (by simp)
                      · simp only [Option.some.injEq, Prod.mk.injEq] at h
                        obtain ⟨rfl, rfl⟩ := h
                        exact alookup_cons_self _ _ _
  simp [AssetManager.get_material, hl]

/-- A successful get_texture caches its composite key: calling it again returns the same handle and leaves the state unchanged. -/
theorem get_texture_idem (am am1 : AssetManager) (k : String) (fmt : TexFormat) (id : Nat)
    (h : AssetManager.get_texture am k fmt = some (id, am1)) :
    AssetManager.get_texture am1 k fmt = some (id, am1) := by
  have hl : alookup am1.tex_by_key { key := k, format := fmt } = some id := by
    simp only [AssetManager.get_texture] at h
    split at h
    · rename_i id0 heq
      simp only [Option.some.injEq, Prod.mk.injEq] at h
      obtain ⟨rfl, rfl⟩ := h
      exact heq
    · split at h
      · exact absurd h (by simp)
      · split at h
        · exact absurd h (by simp)
        · simp only [Option.some.injEq, Prod.mk.injEq] at h
          obtain ⟨rfl, rfl⟩ := h
          exact alookup_cons_self _ _ _
  simp [AssetManager.get_texture, hl]

/-- A successful get_sampler caches its key: calling it again returns the same handle and leaves the state unchanged. -/
theorem get_sampler_idem (am am1 : AssetManager) (k : String) (id : Nat)
    (h : AssetManager.get_sampler am k = some (id, am1)) :
    AssetManager.get_sampler am1 k = some (id, am1) := by
  have hsp : ∃ ps, split_path k = some ps := by
    simp only [AssetManager.get_sampler] at h
    split at h
    · exact absurd h (by simp)
    · rename_i p0 s0 heq
      exact ⟨(p0, s0), heq⟩
  obtain ⟨ps0, hps⟩ := hsp
  have hl : alookup am1.sampler_by_name k = some id := by
    simp only [AssetManager.get_sampler] at h
    split at h
    · exact absurd h (by simp)
    · split at h
      · rename_i id0 heq
        simp only [Option.some.injEq, Prod.mk.injEq] at h
        obtain ⟨rfl, rfl⟩ := h
        exact heq
      · simp only [Option.some.injEq, Prod.mk.injEq] at h
        obtain ⟨rfl, rfl⟩ := h
        exact alookup_cons_self _ _ _
  simp [AssetManager.get_sampler, hps, hl]

/-- A vertex used by the concrete test scenes. -/
def vD : Vertex :=
  { position := (0, 0, 0), uv := (0, 0), normal := (0, 1, 0), tangent := (1, 0, 0, 1) }

/-- A one-triangle primitive with three vertices and no material selector. -/
def primD : Primitive :=
  { vertex := [vD, vD, vD], index := [{ a := 0, b := 1, c := 2 }], material := none }

/-- A material whose four texture references are all present. -/
def matD : Material :=
  { base_color_factor := (1, 1, 1, 1)
    metallic_factor := 0
    roughness_factor := 1
    emissive_factor := (0, 0, 0)
    alpha_cutoff := 1/2
    double_sided := false
    base_color_texture := some 0
    metallic_roughness_texture := some 0
    normal_texture := some 0
    emissive_texture := some 0 }

/-- A 1x1 decoded image with no sampler reference. -/
def texD : Texture := { pixels := [255, 255, 255, 255], width := 1, height := 1, sampler := none }

/-- A plain sampler description. -/
def sampD : Sampler :=
  { address_mode_u := AddressMode.Repeat
    address_mode_v := AddressMode.Repeat
    address_mode_w := AddressMode.ClampToEdge
    mag_filter := FilterMode.Linear
    min_filter := FilterMode.Linear
    mipmap_filter := FilterMode.Nearest }

/-- A concrete importer environment serving the test scene. -/
def impD : Importer :=
  { load_mesh := fun _ _ => [primD]
    load_material := fun _ _ => matD
    load_texture := fun _ _ => texD
    load_sampler := fun _ _ => sampD }

/-- A freshly constructed asset manager over the test importer. -/
def amD : AssetManager := AssetManager.new impD

def WresMesh : Option (Nat × AssetManager) := AssetManager.get_mesh amD ("m.glb#0")

def WS1 : AssetManager := (WresMesh.getD (0, amD)).2

def WM1 : Nat := (WresMesh.getD (0, amD)).1

def WresMat : Option (Nat × AssetManager) := AssetManager.get_material amD ("m.glb#0")

def WS2 : AssetManager := (WresMat.getD (0, amD)).2

def WM2 : Nat := (WresMat.getD (0, amD)).1

def WresTex : Option (Nat × AssetManager) :=
  AssetManager.get_texture amD ("m.glb#3") TexFormat.rgba8Unorm

def WS3 : AssetManager := (WresTex.getD (0, amD)).2

def WM3 : Nat := (WresTex.getD (0, amD)).1

def WresSamp : Option (Nat × AssetManager) := AssetManager.get_sampler amD ("m.glb#5")

def WS4 : AssetManager := (WresSamp.getD (0, amD)).2

def WM4 : Nat := (WresSamp.getD (0, amD)).1

/-- C4: for every key and every lookup family (mesh by name, material by
name, texture by (key, format), sampler by key), once a lookup has
succeeded, a second lookup with the same key returns the identical handle
and leaves the asset-manager state completely unchanged — in particular it
performs no new import and no new GPU resource creation. -/
theorem C4_cache_idempotence
    (s1 s1' s2 s2' s3 s3' s4 s4' : AssetManager)
    (k1 k2 k3 k4 : String) (fmt : TexFormat) (m mat t sp : Nat)
    (h1 : AssetManager.get_mesh s1 k1 = some (m, s1'))
    (h2 : AssetManager.get_material s2 k2 = some (mat, s2'))
    (h3 : AssetManager.get_texture s3 k3 fmt = some (t, s3'))
    (h4 : AssetManager.get_sampler s4 k4 = some (sp, s4')) :
    AssetManager.get_mesh s1' k1 = some (m, s1') ∧
    AssetManager.get_material s2' k2 = some (mat, s2') ∧
    AssetManager.get_texture s3' k3 fmt = some (t, s3') ∧
    AssetManager.get_sampler s4' k4 = some (sp, s4') :=
  ⟨get_mesh_idem s1 s1' k1 m h1, get_material_idem s2 s2' k2 mat h2,
   get_texture_idem s3 s3' k3 fmt t h3, get_sampler_idem s4 s4' k4 sp h4⟩

set_option maxRecDepth 100000 in
/-- C4 witness: the idempotence theorem applied to concrete first lookups of each family over the test importer. -/
theorem C4_cache_idempotence_witness :
    AssetManager.get_mesh WS1 ("m.glb#0") = some (WM1, WS1) ∧
    AssetManager.get_material WS2 ("m.glb#0") = some (WM2, WS2) ∧
    AssetManager.get_texture WS3 ("m.glb#3") TexFormat.rgba8Unorm = some (WM3, WS3) ∧
    AssetManager.get_sampler WS4 ("m.glb#5") = some (WM4, WS4) :=
  C4_cache_idempotence amD WS1 amD WS2 amD WS3 amD WS4
    ("m.glb#0") ("m.glb#0") ("m.glb#3") ("m.glb#5") TexFormat.rgba8Unorm
    WM1 WM2 WM3 WM4 (by rfl) (by rfl) (by rfl) (by rfl)

/-- A material with none of the four texture references present. -/
def matNoTex : Material :=
  { base_color_factor := (1, 1, 1, 1)
    metallic_factor := 0
    roughness_factor := 1
    emissive_factor := (0, 0, 0)
    alpha_cutoff := 1/2
    double_sided := false
    base_color_texture := none
    metallic_roughness_texture := none
    normal_texture := none
    emissive_texture := none }

/-- An importer environment whose materials carry no texture references. -/
def impC1 : Importer :=
  { load_mesh := fun _ _ => [primD]
    load_material := fun _ _ => matNoTex
    load_texture := fun _ _ => texD
    load_sampler := fun _ _ => sampD }

/-- A fresh asset manager over the texture-less importer. -/
def amC1 : AssetManager := AssetManager.new impC1

/-- C1: the claim says a cache-miss get_material resolves exactly the present
texture references and that an absent reference does not make the operation
fail.  The code maps each optional reference and then unwraps, so the very
first absent reference panics: at the concrete input below the imported
material has no base-color reference, the key is a cache miss, and
get_material panics (returns none in the embedding) instead of succeeding.
This contradicts the claim and the spec's error taxonomy (which does not
list an absent reference as a failure), while the manager even pre-builds
dummy default textures for exactly this situation — the unwrap is a slip in
the code, not intended behavior. -/
theorem C1_absent_texture_reference_panics :
    (impC1.load_material "m.gltf" (some "0")).base_color_texture = none ∧
    alookup amC1.mat_by_name ("m.gltf#0") = none ∧
    AssetManager.get_material amC1 ("m.gltf#0") = none :=
  ⟨rfl, rfl, rfl⟩

/-- The f32 environment used by the concrete renderer scenarios. -/
def envD : FEnv := { cosf := fun q => q, view_projf := fun _ => [] }

/-- A concrete camera. -/
def camD : Camera :=
  { eye := (0, 0, 5), target := (0, 0, 0), up := (0, 1, 0)
    fov_y_radians := 1, z_near := 1/10, z_far := 100, aspect := 1 }

/-- A concrete renderer state whose light count record is stale (5). -/
def rD : ForwardRenderer :=
  { asset := amD
    camera := camD
    camBuf := { view_proj := [], camera_pos := (0, 0, 0) }
    lightArr := []
    lightParams := { count := 5 } }

/-- C2 counterexample: the claim puts the light upload before swapchain
acquisition, so after any acquisition failure the light array and count
record would already be updated.  At this concrete input (one light, a
timeout acquisition, a stale count record of 5) the render call returns with
the count record still 5, not min 1 MAX_LIGHTS = 1: the code acquires first
and uploads lights only after a successful acquisition. -/
theorem C2_render_order_counterexample :
    ∃ r' res, render envD rD [Light.default] camD [] AcquireResult.timeout = some (r', res) ∧
      r'.lightParams.count ≠ min ([Light.default].length) MAX_LIGHTS := by
  refine ⟨_, _, rfl, ?_⟩
  decide

/-- C2 (amended): every render call performs its steps in the order
(1) update the camera uniform, (2) acquire the swapchain image, (3) only
after a successful acquisition clamp, convert and upload the light array and
count record; consequently on any acquisition failure the camera uniform has
already been updated for that call but the light array and count record have
not, the frame is dropped without a draw (with process exit on the
out-of-memory error), and no error value propagates to the caller. -/
theorem C2_render_order_amended (env : FEnv) (r : ForwardRenderer) (lights : List Light)
    (cam : Camera) (action : List RenderCommand) (acq : AcquireResult)
    (h : acq ≠ AcquireResult.ok) :
    ∃ res, render env r lights cam action acq =
        some (update_camera_buffer env { r with camera := cam }, res) ∧
      (res = FrameResult.skipped ∨ res = FrameResult.exited) ∧
      (update_camera_buffer env { r with camera := cam }).lightArr = r.lightArr ∧
      (update_camera_buffer env { r with camera := cam }).lightParams = r.lightParams ∧
      (update_camera_buffer env { r with camera := cam }).camera = cam ∧
      (update_camera_buffer env { r with camera := cam }).camBuf =
        { view_proj := env.view_projf cam, camera_pos := cam.eye } := by
  cases acq with
  | ok => exact absurd rfl h
  | lost => exact ⟨FrameResult.skipped, rfl, Or.inl rfl, rfl, rfl, rfl, rfl⟩
  | outdated => exact ⟨FrameResult.skipped, rfl, Or.inl rfl, rfl, rfl, rfl, rfl⟩
  | outOfMemory => exact ⟨FrameResult.exited, rfl, Or.inr rfl, rfl, rfl, rfl, rfl⟩
  | timeout => exact ⟨FrameResult.skipped, rfl, Or.inl rfl, rfl, rfl, rfl, rfl⟩
  | other => exact ⟨FrameResult.skipped, rfl, Or.inl rfl, rfl, rfl, rfl, rfl⟩

/-- C2 witness: the amended theorem applied to a concrete renderer state and a timeout acquisition. -/
theorem C2_render_order_amended_witness :
    ∃ res, render envD rD [Light.default] camD [] AcquireResult.timeout =
        some (update_camera_buffer envD { rD with camera := camD }, res) ∧
      (res = FrameResult.skipped ∨ res = FrameResult.exited) ∧
      (update_camera_buffer envD { rD with camera := camD }).lightArr = rD.lightArr ∧
      (update_camera_buffer envD { rD with camera := camD }).lightParams = rD.lightParams ∧
      (update_camera_buffer envD { rD with camera := camD }).camera = camD ∧
      (update_camera_buffer envD { rD with camera := camD }).camBuf =
        { view_proj := envD.view_projf camD, camera_pos := camD.eye } :=
  C2_render_order_amended envD rD [Light.default] camD [] AcquireResult.timeout (by decide)

/-- C7: on a successfully acquired frame, the uploaded light count record
equals min(list length, MAX_LIGHTS) — never the original list length — and
the light array upload consists of exactly the first min(list length,
MAX_LIGHTS) lights converted to uniform form (lights beyond the maximum are
dropped); when that minimum is zero no array write happens at all. -/
theorem C7_light_truncation (env : FEnv) (r r' : ForwardRenderer) (lights : List Light)
    (cam : Camera) (action : List RenderCommand) (res : FrameResult)
    (h : render env r lights cam action AcquireResult.ok = some (r', res)) :
    r'.lightParams.count = min lights.length MAX_LIGHTS ∧
    (0 < min lights.length MAX_LIGHTS →
      r'.lightArr =
        (lights.take (min lights.length MAX_LIGHTS)).map (LightUniform.ofLight env.cosf) ∧
      r'.lightArr.length = min lights.length MAX_LIGHTS) ∧
    (min lights.length MAX_LIGHTS = 0 → r'.lightArr = r.lightArr) := by
  simp only [render] at h
  split at h
  · exact absurd h (by simp)
  · rename_i ds hds
    simp only [Option.some.injEq, Prod.mk.injEq] at h
    obtain ⟨h1, h2⟩ := h
    subst h1
    refine ⟨rfl, ?_, ?_⟩
    · intro hpos
      constructor
      · split
        · rfl
        · rename_i hneg
          exact absurd hpos hneg
      · split
        · simp only [List.length_map, List.length_take]
          omega
        · rename_i hneg
          exact absurd hpos hneg
    · intro h0
      split
      · rename_i hpos2
        omega
      · rfl

def WresRender : Option (ForwardRenderer × FrameResult) :=
  render envD rD [Light.default] camD [] AcquireResult.ok

def WR7 : ForwardRenderer := (WresRender.getD (rD, FrameResult.skipped)).1

def WFR7 : FrameResult := (WresRender.getD (rD, FrameResult.skipped)).2

set_option maxRecDepth 100000 in
/-- C7 witness: the truncation theorem applied to a concrete successful render call with one light. -/
theorem C7_light_truncation_witness :
    WR7.lightParams.count = min ([Light.default].length) MAX_LIGHTS ∧
    (0 < min ([Light.default].length) MAX_LIGHTS →
      WR7.lightArr =
        (([Light.default]).take (min ([Light.default].length) MAX_LIGHTS)).map
          (LightUniform.ofLight envD.cosf) ∧
      WR7.lightArr.length = min ([Light.default].length) MAX_LIGHTS) ∧
    (min ([Light.default].length) MAX_LIGHTS = 0 → WR7.lightArr = rD.lightArr) :=
  C7_light_truncation envD rD WR7 [Light.default] camD [] WFR7 (by rfl)

theorem totalVerts_take_mono (ps : List Primitive) (k l : Nat) (h : k ≤ l) :
    totalVerts (ps.take k) ≤ totalVerts (ps.take l) := by
  have h1 : ps.take k = (ps.take l).take k := by
    rw [List.take_take, Nat.min_eq_left h]
  calc totalVerts (ps.take k) = totalVerts ((ps.take l).take k) := by rw [h1]
    _ ≤ totalVerts ((ps.take l).take k) + totalVerts ((ps.take l).drop k) := Nat.le_add_right _ _
    _ = totalVerts (ps.take l) := by rw [← totalVerts_append, List.take_append_drop]

theorem totalVerts_take_succ (ps : List Primitive) (k : Nat) (hk : k < ps.length) :
    totalVerts (ps.take (k + 1)) = totalVerts (ps.take k) + (ps.get ⟨k, hk⟩).vertex.length := by
  rw [List.take_succ, totalVerts_append]
  have : ps[k]? = some (ps.get ⟨k, hk⟩) := by
    rw [List.getElem?_eq_getElem hk]
    rfl
  simp [this, totalVerts]

/-- Looking up the mesh id returned by set_mesh yields the built record: the
rangesFrom primitive ranges, the totalVerts/totalIdx counts, and the fresh
vertex buffer id. -/
theorem set_mesh_lookup (am : AssetManager) (ps : List Primitive) (name : String) :
    ∃ ib ifmt,
      AssetManager.mesh (AssetManager.set_mesh am ps name).2 (AssetManager.set_mesh am ps name).1 =
        some
          { name := some name
            primitives := rangesFrom 0 0 ps
            vertex_buf := am.nextBufId
            index_buf := ib
            index_format := ifmt
            vertex_count := totalVerts ps
            index_count := totalIdx ps } := by
  by_cases h : flatIdxFrom 0 ps = []
  · have h0 : totalIdx ps = 0 := by
      rw [← flatIdxFrom_length 0 ps, h]
      rfl
    rw [set_mesh_eq_noidx am ps name h]
    refine ⟨none, none, ?_⟩
    simp [AssetManager.mesh, alookup_cons_self, h0]
  · by_cases h16 : totalVerts ps ≤ 65536 ∧ ∀ i ∈ flatIdxFrom 0 ps, i < 65536
    · rw [set_mesh_eq_u16 am ps name h h16]
      exact ⟨some (am.nextBufId + 1), some IndexFormat.uint16,
        by simp [AssetManager.mesh, alookup_cons_self]⟩
    · rw [set_mesh_eq_u32 am ps name h h16]
      exact ⟨some (am.nextBufId + 1), some IndexFormat.uint32,
        by simp [AssetManager.mesh, alookup_cons_self]⟩

/-- C3: for a mesh built by set_mesh with a non-empty flattened index list,
the 16-bit index format is chosen if and only if the total vertex count is
at most 65536 and every value of the flattened base-offset index array is
below 65536; in the complementary case exactly the 32-bit format is chosen. -/
theorem C3_index_width (am : AssetManager) (ps : List Primitive) (name : String)
    (hne : flatIdxFrom 0 ps ≠ []) :
    ∃ mesh,
      AssetManager.mesh (AssetManager.set_mesh am ps name).2 (AssetManager.set_mesh am ps name).1 =
        some mesh ∧
      (mesh.index_format = some IndexFormat.uint16 ↔
        (totalVerts ps ≤ 65536 ∧ ∀ i ∈ flatIdxFrom 0 ps, i < 65536)) ∧
      (mesh.index_format = some IndexFormat.uint32 ↔
        ¬ (totalVerts ps ≤ 65536 ∧ ∀ i ∈ flatIdxFrom 0 ps, i < 65536)) := by
  by_cases h16 : totalVerts ps ≤ 65536 ∧ ∀ i ∈ flatIdxFrom 0 ps, i < 65536
  · rw [set_mesh_eq_u16 am ps name hne h16]
    exact ⟨_, alookup_cons_self _ _ _, by simpa using h16, by simpa using h16⟩
  · rw [set_mesh_eq_u32 am ps name hne h16]
    exact ⟨_, alookup_cons_self _ _ _, by simpa using h16, by simpa using h16⟩

/-- C3 witness: the index-width theorem applied to a concrete one-primitive mesh. -/
theorem C3_index_width_witness :
    ∃ mesh,
      AssetManager.mesh (AssetManager.set_mesh amD [primD] "w").2
          (AssetManager.set_mesh amD [primD] "w").1 =
        some mesh ∧
      (mesh.index_format = some IndexFormat.uint16 ↔
        (totalVerts [primD] ≤ 65536 ∧ ∀ i ∈ flatIdxFrom 0 [primD], i < 65536)) ∧
      (mesh.index_format = some IndexFormat.uint32 ↔
        ¬ (totalVerts [primD] ≤ 65536 ∧ ∀ i ∈ flatIdxFrom 0 [primD], i < 65536)) :=
  C3_index_width amD [primD] "w" (by decide)

/-- C5: every mesh built by set_mesh satisfies the concatenation invariant:
the recorded totals are the sums of the per-primitive vertex and index
counts, there is one range per primitive, each range sits at the cumulative
first index and base vertex of the primitives before it, and the ranges are
monotonically increasing with non-overlapping first_index/base_vertex
extents. -/
theorem C5_concatenation_invariant (am : AssetManager) (ps : List Primitive) (name : String) :
    ∃ mesh,
      AssetManager.mesh (AssetManager.set_mesh am ps name).2 (AssetManager.set_mesh am ps name).1 =
        some mesh ∧
      mesh.vertex_count = totalVerts ps ∧
      mesh.index_count = totalIdx ps ∧
      mesh.primitives.length = ps.length ∧
      (∀ (k : Nat) (p : Primitive) (q : PrimitiveRange),
        ps[k]? = some p → mesh.primitives[k]? = some q →
        q.first_index = totalIdx (ps.take k) ∧
        q.index_count = p.index.length * 3 ∧
        q.base_vertex = ((totalVerts (ps.take k) : Nat) : Int)) ∧
      (∀ (k l : Nat) (p : Primitive) (q ql : PrimitiveRange),
        k < l → ps[k]? = some p → mesh.primitives[k]? = some q →
        mesh.primitives[l]? = some ql →
        q.first_index + q.index_count ≤ ql.first_index ∧
        q.base_vertex + (p.vertex.length : Int) ≤ ql.base_vertex) := by
  obtain ⟨ib, ifmt, hlook⟩ := set_mesh_lookup am ps name
  refine ⟨_, hlook, rfl, rfl, rangesFrom_length 0 0 ps, ?_, ?_⟩
  · intro k p q hp hq
    have hk : k < ps.length := by
      by_contra hge
      rw [List.getElem?_eq_none (by omega)] at hp
      exact absurd hp (by simp)
    rw [rangesFrom_getElem ps 0 0 k hk] at hq
    have hpk : ps.get ⟨k, hk⟩ = p := by
      have := List.getElem?_eq_getElem hk
      rw [hp] at this
      simpa using this.symm
    simp only [Option.some.injEq] at hq
    subst hq
    rw [hpk]
    refine ⟨?_, rfl, ?_⟩ <;> dsimp only <;> simp
  · intro k l p q ql hkl hp hq hql
    have hk : k < ps.length := by
      by_contra hge
      rw [List.getElem?_eq_none (by omega)] at hp
      exact absurd hp (by simp)
    have hl : l < ps.length := by
      by_contra hge
      rw [List.getElem?_eq_none (by rw [rangesFrom_length]; omega)] at hql
      exact absurd hql (by simp)
    have hpk : ps.get ⟨k, hk⟩ = p := by
      have := List.getElem?_eq_getElem hk
      rw [hp] at this
      simpa using this.symm
    rw [rangesFrom_getElem ps 0 0 k hk] at hq
    rw [rangesFrom_getElem ps 0 0 l hl] at hql
    simp only [Option.some.injEq] at hq hql
    subst hq
    subst hql
    have hsucc1 : totalIdx (ps.take (k + 1)) =
        totalIdx (ps.take k) + (ps.get ⟨k, hk⟩).index.length * 3 :=
      totalIdx_take_succ ps k hk
    have hmono1 : totalIdx (ps.take (k + 1)) ≤ totalIdx (ps.take l) :=
      totalIdx_take_mono ps (k + 1) l (by omega)
    have hsucc2 : totalVerts (ps.take (k + 1)) =
        totalVerts (ps.take k) + (ps.get ⟨k, hk⟩).vertex.length :=
      totalVerts_take_succ ps k hk
    have hmono2 : totalVerts (ps.take (k + 1)) ≤ totalVerts (ps.take l) :=
      totalVerts_take_mono ps (k + 1) l (by omega)
    rw [hpk] at hsucc2
    constructor
    · dsimp only
      omega
    · dsimp only
      push_cast
      omega

/-- C5 witness: the concatenation theorem applied to a concrete two-primitive list. -/
theorem C5_concatenation_invariant_witness :
    ∃ mesh,
      AssetManager.mesh (AssetManager.set_mesh amD [primD, primD] "w5").2
          (AssetManager.set_mesh amD [primD, primD] "w5").1 =
        some mesh ∧
      mesh.vertex_count = totalVerts [primD, primD] ∧
      mesh.index_count = totalIdx [primD, primD] ∧
      mesh.primitives.length = ([primD, primD] : List Primitive).length ∧
      (∀ (k : Nat) (p : Primitive) (q : PrimitiveRange),
        ([primD, primD] : List Primitive)[k]? = some p →
        mesh.primitives[k]? = some q →
        q.first_index = totalIdx (([primD, primD] : List Primitive).take k) ∧
        q.index_count = p.index.length * 3 ∧
        q.base_vertex = ((totalVerts (([primD, primD] : List Primitive).take k) : Nat) : Int)) ∧
      (∀ (k l : Nat) (p : Primitive) (q ql : PrimitiveRange),
        k < l → ([primD, primD] : List Primitive)[k]? = some p →
        mesh.primitives[k]? = some q → mesh.primitives[l]? = some ql →
        q.first_index + q.index_count ≤ ql.first_index ∧
        q.base_vertex + (p.vertex.length : Int) ≤ ql.base_vertex) :=
  C5_concatenation_invariant amD [primD, primD] "w5"

theorem alookup_writeBuffer (am : AssetManager) (i : Nat) (d : BufData) (j : Nat) :
    alookup (writeBuffer am i d).buffers j =
      if j = i then (alookup am.buffers j).map (fun _ => d) else alookup am.buffers j :=
  alookup_mapUpdate am.buffers i (fun _ => d) j

theorem alookup_updateMeshAt (am : AssetManager) (mid : Nat) (m : Mesh) (j : Nat) :
    alookup (updateMeshAt am mid m).meshes j =
      if j = mid then (alookup am.meshes j).map (fun _ => m) else alookup am.meshes j :=
  alookup_mapUpdate am.meshes mid (fun _ => m) j

/-- C8: on a valid mesh handle, rewrite_mesh succeeds exactly when the new
primitive set's total vertex and index counts equal the recorded counts of
the original upload; on success it overwrites the vertex buffer (and, per
the recorded format, the index buffer) contents in place — the allocation
counter and the set of live buffer ids are unchanged — and replaces the
primitive ranges; on a count mismatch it panics before any write (none in
the embedding). -/
theorem C8_rewrite_counts (am : AssetManager) (mid : Nat) (ps : List Primitive) (m : Mesh)
    (hm : AssetManager.mesh am mid = some m) :
    ((AssetManager.rewrite_mesh am mid ps).isSome ↔
      (totalVerts ps = m.vertex_count ∧ totalIdx ps = m.index_count)) ∧
    (∀ am', AssetManager.rewrite_mesh am mid ps = some am' →
      am'.nextBufId = am.nextBufId ∧
      (∀ b, (alookup am'.buffers b).isSome ↔ (alookup am.buffers b).isSome) ∧
      AssetManager.mesh am' mid = some { m with primitives := rwRanges ps 0 0 } ∧
      (m.index_buf = none →
        alookup am'.buffers m.vertex_buf =
          (alookup am.buffers m.vertex_buf).map (fun _ => BufData.verts (flatVerts ps))) ∧
      (∀ ib, m.index_buf = some ib → ib ≠ m.vertex_buf →
        alookup am'.buffers m.vertex_buf =
          (alookup am.buffers m.vertex_buf).map (fun _ => BufData.verts (flatVerts ps)) ∧
        (m.index_format = some IndexFormat.uint16 →
          alookup am'.buffers ib =
            (alookup am.buffers ib).map
              (fun _ => BufData.idx16 ((flatIdxFrom 0 ps).map (fun i => i % 65536)))) ∧
        (m.index_format = some IndexFormat.uint32 →
          alookup am'.buffers ib =
            (alookup am.buffers ib).map (fun _ => BufData.idx32 (flatIdxFrom 0 ps))))) := by
  have hm' : alookup am.meshes mid = some m := hm
  constructor
  · simp only [AssetManager.rewrite_mesh, hm', rwFlatten_eq, List.nil_append, Nat.zero_add,
      flatIdxFrom_length]
    split
    · rename_i hcond
      simpa using hcond
    · rename_i hcond
      simpa using hcond
  · intro am' ham'
    simp only [AssetManager.rewrite_mesh, hm', rwFlatten_eq, List.nil_append, Nat.zero_add,
      flatIdxFrom_length] at ham'
    split at ham'
    · rename_i hcond
      simp only [Option.some.injEq] at ham'
      subst ham'
      obtain ⟨mname, mprims, mvb, mib, mifmt, mvc, mic⟩ := m
      cases mib with
      | none =>
          refine ⟨rfl, ?_, ?_, ?_, ?_⟩
          · intro b
            simp only [updateMeshAt, alookup_writeBuffer]
            split_ifs <;> simp
          · simp only [AssetManager.mesh, alookup_updateMeshAt, if_pos rfl]
            have : alookup (writeBuffer am mvb (BufData.verts (flatVerts ps))).meshes mid =
                alookup am.meshes mid := rfl
            rw [this, hm']
            rfl
          · intro _
            simp [updateMeshAt, alookup_writeBuffer]
          · intro ib hib
            simp at hib
      | some ib =>
          cases mifmt with
          | none =>
              refine ⟨rfl, ?_, ?_, ?_, ?_⟩
              · intro b
                simp only [updateMeshAt, alookup_writeBuffer]
                split_ifs <;> simp
              · simp only [AssetManager.mesh, alookup_updateMeshAt, if_pos rfl]
                have : alookup (writeBuffer am mvb (BufData.verts (flatVerts ps))).meshes mid =
                    alookup am.meshes mid := rfl
                rw [this, hm']
                rfl
              · intro hnone
                simp at hnone
              · intro ib2 hib2 hne
                obtain rfl : ib = ib2 := by simpa using hib2
                refine ⟨by simp [updateMeshAt, alookup_writeBuffer], ?_, ?_⟩ <;>
                  intro hfmt <;> simp at hfmt
          | some f =>
              cases f with
              | uint16 =>
                  refine ⟨rfl, ?_, ?_, ?_, ?_⟩
                  · intro b
                    simp only [updateMeshAt, alookup_writeBuffer]
                    split_ifs <;> simp
                  · simp only [AssetManager.mesh, alookup_updateMeshAt, if_pos rfl]
                    have : alookup (writeBuffer
                        (writeBuffer am mvb (BufData.verts (flatVerts ps))) ib
                        (BufData.idx16 ((flatIdxFrom 0 ps).map (fun i => i % 65536)))).meshes mid =
                        alookup am.meshes mid := rfl
                    rw [this, hm']
                    rfl
                  · intro hnone
                    simp at hnone
                  · intro ib2 hib2 hne
                    obtain rfl : ib = ib2 := by simpa using hib2
                    have hne2 : ib ≠ mvb := by simpa using hne
                    refine ⟨?_, ?_, ?_⟩
                    · simp [updateMeshAt, alookup_writeBuffer, Ne.symm hne2]
                    · intro _
                      simp [updateMeshAt, alookup_writeBuffer, hne2]
                    · intro hfmt
                      simp at hfmt
              | uint32 =>
                  refine ⟨rfl, ?_, ?_, ?_, ?_⟩
                  · intro b
                    simp only [updateMeshAt, alookup_writeBuffer]
                    split_ifs <;> simp
                  · simp only [AssetManager.mesh, alookup_updateMeshAt, if_pos rfl]
                    have : alookup (writeBuffer
                        (writeBuffer am mvb (BufData.verts (flatVerts ps))) ib
                        (BufData.idx32 (flatIdxFrom 0 ps))).meshes mid =
                        alookup am.meshes mid := rfl
                    rw [this, hm']
                    rfl
                  · intro hnone
                    simp at hnone
                  · intro ib2 hib2 hne
                    obtain rfl : ib = ib2 := by simpa using hib2
                    have hne2 : ib ≠ mvb := by simpa using hne
                    refine ⟨?_, ?_, ?_⟩
                    · simp [updateMeshAt, alookup_writeBuffer, Ne.symm hne2]
                    · intro hfmt
                      simp at hfmt
                    · intro _
                      simp [updateMeshAt, alookup_writeBuffer, hne2]
    · exact absurd ham' (by simp)

/-- A placeholder mesh record used only as a getD default in the concrete scenarios. -/
def meshDefault : Mesh :=
  { name := none, primitives := [], vertex_buf := 0, index_buf := none
    index_format := none, vertex_count := 0, index_count := 0 }

def W8res : Nat × AssetManager := AssetManager.set_mesh amD [primD] "w8"

def W8am : AssetManager := W8res.2

def W8id : Nat := W8res.1

def W8mesh : Mesh := (AssetManager.mesh W8am W8id).getD meshDefault

set_option maxRecDepth 100000 in
/-- C8 witness: the rewrite theorem applied to a mesh freshly built from one primitive and rewritten with a matching primitive set. -/
theorem C8_rewrite_counts_witness :
    ((AssetManager.rewrite_mesh W8am W8id [primD]).isSome ↔
      (totalVerts [primD] = W8mesh.vertex_count ∧ totalIdx [primD] = W8mesh.index_count)) ∧
    (∀ am', AssetManager.rewrite_mesh W8am W8id [primD] = some am' →
      am'.nextBufId = W8am.nextBufId ∧
      (∀ b, (alookup am'.buffers b).isSome ↔ (alookup W8am.buffers b).isSome) ∧
      AssetManager.mesh am' W8id = some { W8mesh with primitives := rwRanges [primD] 0 0 } ∧
      (W8mesh.index_buf = none →
        alookup am'.buffers W8mesh.vertex_buf =
          (alookup W8am.buffers W8mesh.vertex_buf).map
            (fun _ => BufData.verts (flatVerts [primD]))) ∧
      (∀ ib, W8mesh.index_buf = some ib → ib ≠ W8mesh.vertex_buf →
        alookup am'.buffers W8mesh.vertex_buf =
          (alookup W8am.buffers W8mesh.vertex_buf).map
            (fun _ => BufData.verts (flatVerts [primD])) ∧
        (W8mesh.index_format = some IndexFormat.uint16 →
          alookup am'.buffers ib =
            (alookup W8am.buffers ib).map
              (fun _ => BufData.idx16 ((flatIdxFrom 0 [primD]).map (fun i => i % 65536)))) ∧
        (W8mesh.index_format = some IndexFormat.uint32 →
          alookup am'.buffers ib =
            (alookup W8am.buffers ib).map
              (fun _ => BufData.idx32 (flatIdxFrom 0 [primD]))))) :=
  C8_rewrite_counts W8am W8id [primD] W8mesh (by rfl)

theorem rwRanges_material (ps : List Primitive) (f : Nat) (b : Int) :
    ∀ p ∈ rwRanges ps f b, p.material = 0 := by
  induction ps generalizing f b with
  | nil => simp [rwRanges]
  | cons q rest ih =>
      intro p hp
      rcases List.mem_cons.mp hp with h | h
      · rw [h]
      · exact ih _ _ p h

/-- C9: after any successful rewrite_mesh call, every primitive range of the
rewritten mesh has its material reference reset to slot 0 (the default
material), whatever per-primitive materials were recorded before the
rewrite by get_mesh or set_mat. -/
theorem C9_rewrite_resets_materials (am am' : AssetManager) (mid : Nat) (ps : List Primitive)
    (h : AssetManager.rewrite_mesh am mid ps = some am') :
    ∃ m', AssetManager.mesh am' mid = some m' ∧ ∀ p ∈ m'.primitives, p.material = 0 := by
  simp only [AssetManager.rewrite_mesh] at h
  split at h
  · exact absurd h (by simp)
  · rename_i mesh hmesh
    split at h
    · simp only [Option.some.injEq] at h
      subst h
      refine ⟨{ mesh with primitives := rwRanges ps 0 0 }, ?_, rwRanges_material ps 0 0⟩
      rw [AssetManager.mesh, alookup_updateMeshAt, if_pos rfl]
      split <;> (try split) <;> simp [writeBuffer, hmesh]
    · exact absurd h (by simp)

def W9am : AssetManager := (AssetManager.set_mat W8am W8id 0 5).getD W8am

def W9res : Option AssetManager := AssetManager.rewrite_mesh W9am W8id [primD]

def W9am2 : AssetManager := W9res.getD W9am

set_option maxRecDepth 100000 in
/-- C9 witness: the reset theorem applied to a mesh whose only primitive was first given material slot 5 by set_mat and then rewritten. -/
theorem C9_rewrite_resets_materials_witness :
    ∃ m', AssetManager.mesh W9am2 W8id = some m' ∧ ∀ p ∈ m'.primitives, p.material = 0 :=
  C9_rewrite_resets_materials W9am W9am2 W8id [primD] (by rfl)

theorem getLast?_nodup_split (l : List Nat) (a : Nat) (h : l.getLast? = some a)
    (hn : l.Nodup) : a ∈ l ∧ a ∉ l.dropLast := by
  have hmem : a ∈ l.getLast? := by
    rw [h]
    simp
  obtain ⟨hne, hax⟩ := List.mem_getLast?_eq_getLast hmem
  subst hax
  refine ⟨List.getLast_mem hne, ?_⟩
  have hcat := List.dropLast_concat_getLast hne
  rw [← hcat] at hn
  have hd := List.disjoint_of_nodup_append hn
  intro hmem2
  exact hd hmem2 (by simp)

/-- The material slot-allocator invariant: the free list has no duplicates,
holds only indices in [1, MAX_MAT), and the name cache maps keys to indices
in [1, MAX_MAT) that are not free, injectively. -/
def MatInv (am : AssetManager) : Prop :=
  am.mat_free.Nodup ∧
  (∀ i ∈ am.mat_free, 1 ≤ i ∧ i < MAX_MAT) ∧
  (∀ k i, alookup am.mat_by_name k = some i → 1 ≤ i ∧ i < MAX_MAT ∧ i ∉ am.mat_free) ∧
  (∀ k1 k2 i1 i2, alookup am.mat_by_name k1 = some i1 →
    alookup am.mat_by_name k2 = some i2 → k1 ≠ k2 → i1 ≠ i2)

theorem matFree_new_facts :
    (((List.range MAX_MAT).drop 1).reverse).Nodup ∧
    (∀ i ∈ ((List.range MAX_MAT).drop 1).reverse, 1 ≤ i ∧ i < MAX_MAT) := by
  have hrw : (List.range MAX_MAT).drop 1 = (List.range 1023).map Nat.succ := by
    rw [show MAX_MAT = 1023 + 1 from rfl, List.range_succ_eq_map]
    rfl
  constructor
  · rw [List.nodup_reverse, hrw]
    exact (List.nodup_range 1023).map Nat.succ_injective
  · intro i hi
    rw [List.mem_reverse, hrw, List.mem_map] at hi
    obtain ⟨j, hj, rfl⟩ := hi
    rw [List.mem_range] at hj
    have hmm : MAX_MAT = 1024 := rfl
    omega

set_option maxRecDepth 100000 in
/-- AssetManager::new establishes the slot invariant: slot 0 is excluded from
the free pool, the default uniform is written into slot 0 of the material
buffer, and the name cache starts empty. -/
theorem matInv_new (imp : Importer) :
    MatInv (AssetManager.new imp) ∧
    (AssetManager.new imp).mat_free = ((List.range MAX_MAT).drop 1).reverse ∧
    (0 : Nat) ∉ (AssetManager.new imp).mat_free ∧
    alookup (AssetManager.new imp).buffers (AssetManager.new imp).mat_buffer =
      some (BufData.mats [(0, MaterialUniform.default)]) ∧
    (AssetManager.new imp).mat_by_name = [] := by
  obtain ⟨hnd, hbnd⟩ := matFree_new_facts
  refine ⟨⟨hnd, hbnd, ?_, ?_⟩, rfl, ?_, rfl, rfl⟩
  · intro k i hk
    have hnil : (AssetManager.new imp).mat_by_name = [] := rfl
    rw [hnil] at hk
    simp [alookup] at hk
  · intro k1 k2 i1 i2 h1 h2 _
    have hnil : (AssetManager.new imp).mat_by_name = [] := rfl
    rw [hnil] at h1
    simp [alookup] at h1
  · intro h0
    have := hbnd 0 h0
    omega

/-- A successful get_material is either a cache hit (state unchanged) or a
cache miss that pops the last free-list entry and registers the key. -/
theorem get_material_succ_cases (am am' : AssetManager) (name : String) (id : Nat)
    (h : AssetManager.get_material am name = some (id, am')) :
    (alookup am.mat_by_name name = some id ∧ am' = am) ∨
    (alookup am.mat_by_name name = none ∧
      am.mat_free.getLast? = some id ∧
      am'.mat_free = am.mat_free.dropLast ∧
      am'.mat_by_name = (name, id) :: am.mat_by_name) := by
  simp only [AssetManager.get_material] at h
  split at h
  · rename_i id0 heq
    simp only [Option.some.injEq, Prod.mk.injEq] at h
    obtain ⟨rfl, rfl⟩ := h
    exact Or.inl ⟨heq, rfl⟩
  · rename_i heq
    right
    split at h
    · exact absurd h (by simp)
    · split at h
      · exact absurd h (by simp)
      · rename_i t1 am1 h1
        split at h
        · exact absurd h (by simp)
        · split at h
          · exact absurd h (by simp)
          · rename_i t2 am2 h2
            split at h
            · exact absurd h (by simp)
            · split at h
              · exact absurd h (by simp)
              · rename_i t3 am3 h3
                split at h
                · exact absurd h (by simp)
                · split at h
                  · exact absurd h (by simp)
                  · rename_i t4 am4 h4
                    split at h
                    · exact absurd h (by simp)
                    · rename_i idx hidx
                      simp only [Option.some.injEq, Prod.mk.injEq] at h
                      obtain ⟨rfl, rfl⟩ := h
                      have p1 := get_texture_preserves am am1 _ _ t1 h1
                      have p2 := get_texture_preserves am1 am2 _ _ t2 h2
                      have p3 := get_texture_preserves am2 am3 _ _ t3 h3
                      have p4 := get_texture_preserves am3 am4 _ _ t4 h4
                      have hfree : am4.mat_free = am.mat_free := by
                        rw [p4.2.2.2.2.2.1, p3.2.2.2.2.2.1, p2.2.2.2.2.2.1, p1.2.2.2.2.2.1]
                      rw [hfree] at hidx
                      have hby : am4.mat_by_name = am.mat_by_name := by
                        rw [p4.2.2.2.2.2.2.1, p3.2.2.2.2.2.2.1, p2.2.2.2.2.2.2.1,
                          p1.2.2.2.2.2.2.1]
                      refine ⟨heq, hidx, ?_, ?_⟩
                      · simp [writeMat, hfree]
                      · simp [writeMat, hby]

/-- On a cache miss with an exhausted free pool, get_material fails fatally
(none), whatever the texture resolution does. -/
theorem get_material_empty_pool (am : AssetManager) (name : String)
    (hmiss : alookup am.mat_by_name name = none) (hempty : am.mat_free = []) :
    AssetManager.get_material am name = none := by
  simp only [AssetManager.get_material, hmiss]
  split
  · rfl
  · split
    · rfl
    · rename_i t1 am1 h1
      split
      · rfl
      · split
        · rfl
        · rename_i t2 am2 h2
          split
          · rfl
          · split
            · rfl
            · rename_i t3 am3 h3
              split
              · rfl
              · split
                · rfl
                · rename_i t4 am4 h4
                  have p1 := get_texture_preserves am am1 _ _ t1 h1
                  have p2 := get_texture_preserves am1 am2 _ _ t2 h2
                  have p3 := get_texture_preserves am2 am3 _ _ t3 h3
                  have p4 := get_texture_preserves am3 am4 _ _ t4 h4
                  have hf : am4.mat_free = [] := by
                    rw [p4.2.2.2.2.2.1, p3.2.2.2.2.2.1, p2.2.2.2.2.2.1, p1.2.2.2.2.2.1, hempty]
                  rw [hf]
                  simp

/-- C6: material slot 0 is reserved for the default material and written at
manager construction (it is never in the free pool); under the allocator
invariant, every successful get_material keeps the invariant, returns a slot
in [1, MAX_MAT), preserves all earlier key-to-slot bindings, and on a cache
miss removes exactly one index (the popped last element) from the free pool
and never returns an index previously handed out — so any two distinct keys
map to distinct slots; on a cache miss with an empty free pool the
operation fails fatally. -/
theorem C6_material_slot_allocation (am am' : AssetManager) (key : String) (id : Nat)
    (hinv : MatInv am) (h : AssetManager.get_material am key = some (id, am')) :
    (∀ imp : Importer, MatInv (AssetManager.new imp) ∧
      (0 : Nat) ∉ (AssetManager.new imp).mat_free ∧
      alookup (AssetManager.new imp).buffers (AssetManager.new imp).mat_buffer =
        some (BufData.mats [(0, MaterialUniform.default)])) ∧
    MatInv am' ∧
    alookup am'.mat_by_name key = some id ∧
    1 ≤ id ∧ id < MAX_MAT ∧
    (∀ k i, alookup am.mat_by_name k = some i → alookup am'.mat_by_name k = some i) ∧
    (alookup am.mat_by_name key = none →
      am.mat_free.getLast? = some id ∧
      am'.mat_free = am.mat_free.dropLast ∧
      id ∉ am'.mat_free ∧
      (∀ k i, alookup am.mat_by_name k = some i → i ≠ id)) ∧
    (∀ (am2 : AssetManager) (k2 : String), am2.mat_free = [] →
      alookup am2.mat_by_name k2 = none → AssetManager.get_material am2 k2 = none) := by
  obtain ⟨hnodup, hbound, hmap, hinj⟩ := hinv
  have hnew : ∀ imp : Importer, MatInv (AssetManager.new imp) ∧
      (0 : Nat) ∉ (AssetManager.new imp).mat_free ∧
      alookup (AssetManager.new imp).buffers (AssetManager.new imp).mat_buffer =
        some (BufData.mats [(0, MaterialUniform.default)]) := by
    intro imp
    obtain ⟨a, _, b, c, _⟩ := matInv_new imp
    exact ⟨a, b, c⟩
  have hpool := fun am2 k2 => get_material_empty_pool am2 k2
  rcases get_material_succ_cases am am' key id h with ⟨hlook, rfl⟩ | ⟨hmiss, hlast, hfree, hby⟩
  · obtain ⟨hb1, hb2, _⟩ := hmap key id hlook
    refine ⟨hnew, ⟨hnodup, hbound, hmap, hinj⟩, hlook, hb1, hb2, fun k i hk => hk, ?_, ?_⟩
    · intro hmiss
      rw [hmiss] at hlook
      exact absurd hlook (by simp)
    · intro am2 k2 he hm
      exact hpool am2 k2 hm he
  · obtain ⟨hid_mem, hid_not⟩ := getLast?_nodup_split am.mat_free id hlast hnodup
    obtain ⟨hb1, hb2⟩ := hbound id hid_mem
    have hsub : am.mat_free.dropLast.Sublist am.mat_free := List.dropLast_sublist _
    have hold_ne : ∀ k i, alookup am.mat_by_name k = some i → i ≠ id := by
      intro k i hk hcontra
      subst hcontra
      exact (hmap k i hk).2.2 hid_mem
    have hinv' : MatInv am' := by
      refine ⟨?_, ?_, ?_, ?_⟩
      · rw [hfree]
        exact hsub.nodup hnodup
      · intro i hi
        rw [hfree] at hi
        exact hbound i (hsub.mem hi)
      · intro k i hk
        rw [hby] at hk
        by_cases hkey : k = key
        · subst hkey
          rw [alookup_cons_self] at hk
          simp only [Option.some.injEq] at hk
          subst hk
          rw [hfree]
          exact ⟨hb1, hb2, hid_not⟩
        · rw [alookup_cons_ne _ _ _ _ hkey] at hk
          obtain ⟨c1, c2, c3⟩ := hmap k i hk
          rw [hfree]
          exact ⟨c1, c2, fun hc => c3 (hsub.mem hc)⟩
      · intro k1 k2 i1 i2 h1 h2 hne
        rw [hby] at h1 h2
        by_cases hk1 : k1 = key
        · subst hk1
          rw [alookup_cons_self] at h1
          simp only [Option.some.injEq] at h1
          subst h1
          rw [alookup_cons_ne _ _ _ _ (fun hc => hne hc.symm)] at h2
          exact fun hc => (hold_ne k2 i2 h2) hc.symm
        · rw [alookup_cons_ne _ _ _ _ hk1] at h1
          by_cases hk2 : k2 = key
          · subst hk2
            rw [alookup_cons_self] at h2
            simp only [Option.some.injEq] at h2
            subst h2
            exact hold_ne k1 i1 h1
          · rw [alookup_cons_ne _ _ _ _ hk2] at h2
            exact hinj k1 k2 i1 i2 h1 h2 hne
    refine ⟨hnew, hinv', ?_, hb1, hb2, ?_, ?_, ?_⟩
    · rw [hby]
      exact alookup_cons_self _ _ _
    · intro k i hk
      have hkne : k ≠ key := by
        intro hc
        subst hc
        rw [hmiss] at hk
        exact absurd hk (by simp)
      rw [hby]
      rw [alookup_cons_ne _ _ _ _ hkne]
      exact hk
    · intro _
      refine ⟨hlast, hfree, ?_, hold_ne⟩
      rw [hfree]
      exact hid_not
    · intro am2 k2 he hm
      exact hpool am2 k2 hm he

set_option maxRecDepth 100000 in
/-- C6 witness: the slot-allocation theorem applied to a concrete cache-miss get_material over a fresh manager. -/
theorem C6_material_slot_allocation_witness :
    (∀ imp : Importer, MatInv (AssetManager.new imp) ∧
      (0 : Nat) ∉ (AssetManager.new imp).mat_free ∧
      alookup (AssetManager.new imp).buffers (AssetManager.new imp).mat_buffer =
        some (BufData.mats [(0, MaterialUniform.default)])) ∧
    MatInv WS2 ∧
    alookup WS2.mat_by_name ("m.glb#0") = some WM2 ∧
    1 ≤ WM2 ∧ WM2 < MAX_MAT ∧
    (∀ k i, alookup amD.mat_by_name k = some i → alookup WS2.mat_by_name k = some i) ∧
    (alookup amD.mat_by_name ("m.glb#0") = none →
      amD.mat_free.getLast? = some WM2 ∧
      WS2.mat_free = amD.mat_free.dropLast ∧
      WM2 ∉ WS2.mat_free ∧
      (∀ k i, alookup amD.mat_by_name k = some i → i ≠ WM2)) ∧
    (∀ (am2 : AssetManager) (k2 : String), am2.mat_free = [] →
      alookup am2.mat_by_name k2 = none → AssetManager.get_material am2 k2 = none) :=
  C6_material_slot_allocation amD WS2 ("m.glb#0") WM2 (matInv_new impD).1 (by rfl)

/-- The index payload stored in a buffer, independent of width. -/
def idxContents : BufData → List Nat
  | BufData.idx16 l => l
  | BufData.idx32 l => l
  | BufData.verts _ => []
  | BufData.mats _ => []

theorem map_mod_of_lt (l : List Nat) (h : ∀ i ∈ l, i < 65536) :
    l.map (fun i => i % 65536) = l := by
  have h2 := List.map_congr_left (fun a ha => Nat.mod_eq_of_lt (h a ha))
  simpa using h2

/-- drawsOf on one command whose mesh has an index buffer and format: one draw per primitive range. -/
theorem drawsOf_single (am : AssetManager) (mid : Nat) (M : Mesh) (ib : Nat) (fmt : IndexFormat)
    (hm : AssetManager.mesh am mid = some M) (hib : M.index_buf = some ib)
    (hfmt : M.index_format = some fmt) :
    drawsOf am [{ mesh_id := mid }] =
      some (M.primitives.map (fun p =>
        { first_index := p.first_index
          index_count := p.index_count
          base_vertex := p.base_vertex
          dynamic_offset := p.material * MAT_ID_SIZE })) := by
  simp only [drawsOf, hm, hib, hfmt]
  simp [drawsOf]

/-- C10: for every primitive of a mesh built by set_mesh, the index values
stored in the mesh's index buffer already include that primitive's
base_vertex offset (stored value = local index + base), and the draw emitted
by render for that primitive range passes the same base_vertex again as the
indexed-draw argument; consequently the effective vertex referenced by the
GPU for a stored index (stored + base) equals the original local index plus
twice the base, for every primitive after the first. -/
theorem C10_double_base_offset (am : AssetManager) (ps : List Primitive) (name : String)
    (k j : Nat) (hk : k < ps.length) (hj : j < (localFlat (ps.get ⟨k, hk⟩)).length) :
    ∃ mesh ib data ds d,
      AssetManager.mesh (AssetManager.set_mesh am ps name).2
          (AssetManager.set_mesh am ps name).1 = some mesh ∧
      mesh.index_buf = some ib ∧
      alookup (AssetManager.set_mesh am ps name).2.buffers ib = some data ∧
      idxContents data = flatIdxFrom 0 ps ∧
      drawsOf (AssetManager.set_mesh am ps name).2
          [{ mesh_id := (AssetManager.set_mesh am ps name).1 }] = some ds ∧
      ds[k]? = some d ∧
      d.first_index = totalIdx (ps.take k) ∧
      d.base_vertex = ((totalVerts (ps.take k) : Nat) : Int) ∧
      (flatIdxFrom 0 ps)[totalIdx (ps.take k) + j]? =
        some (totalVerts (ps.take k) + (localFlat (ps.get ⟨k, hk⟩)).get ⟨j, hj⟩) ∧
      ((totalVerts (ps.take k) + (localFlat (ps.get ⟨k, hk⟩)).get ⟨j, hj⟩ : Nat) : Int) +
          d.base_vertex =
        (((localFlat (ps.get ⟨k, hk⟩)).get ⟨j, hj⟩ : Nat) : Int) +
          2 * ((totalVerts (ps.take k) : Nat) : Int) := by
  have hflat := flatIdxFrom_getElem ps 0 k hk j hj
  have hne : flatIdxFrom 0 ps ≠ [] := by
    intro hnil
    have hlen : totalIdx ps = 0 := by
      rw [← flatIdxFrom_length 0 ps, hnil]
      rfl
    have hpos : 0 < (ps.get ⟨k, hk⟩).index.length * 3 := by
      have := hj
      rw [localFlat_length] at this
      omega
    have hle : totalIdx (ps.take (k + 1)) ≤ totalIdx ps := by
      have h1 := totalIdx_take_mono ps (k + 1) ps.length (by omega)
      rw [List.take_length] at h1
      exact h1
    have hsucc := totalIdx_take_succ ps k hk
    omega
  by_cases h16 : totalVerts ps ≤ 65536 ∧ ∀ i ∈ flatIdxFrom 0 ps, i < 65536
  · rw [set_mesh_eq_u16 am ps name hne h16]
    have hlook := alookup_cons_self am.nextMeshId
      { name := some name
        primitives := rangesFrom 0 0 ps
        vertex_buf := am.nextBufId
        index_buf := some (am.nextBufId + 1)
        index_format := some IndexFormat.uint16
        vertex_count := totalVerts ps
        index_count := totalIdx ps } am.meshes
    refine ⟨_, am.nextBufId + 1, BufData.idx16 ((flatIdxFrom 0 ps).map (fun i => i % 65536)),
      (rangesFrom 0 0 ps).map (fun p =>
        { first_index := p.first_index
          index_count := p.index_count
          base_vertex := p.base_vertex
          dynamic_offset := p.material * MAT_ID_SIZE }),
      { first_index := 0 + totalIdx (ps.take k)
        index_count := (ps.get ⟨k, hk⟩).index.length * 3
        base_vertex := ((0 + totalVerts (ps.take k) : Nat) : Int)
        dynamic_offset := 0 * MAT_ID_SIZE },
      hlook, rfl, alookup_cons_self _ _ _, ?_, ?_, ?_, ?_, ?_, ?_, ?_⟩
    · show (flatIdxFrom 0 ps).map (fun i => i % 65536) = flatIdxFrom 0 ps
      exact map_mod_of_lt _ h16.2
    · refine drawsOf_single _ am.nextMeshId
        { name := some name
          primitives := rangesFrom 0 0 ps
          vertex_buf := am.nextBufId
          index_buf := some (am.nextBufId + 1)
          index_format := some IndexFormat.uint16
          vertex_count := totalVerts ps
          index_count := totalIdx ps }
        (am.nextBufId + 1) IndexFormat.uint16 ?_ rfl rfl
      exact hlook
    · rw [List.getElem?_map, rangesFrom_getElem ps 0 0 k hk]
      rfl
    · simp
    · simp
    · simpa using hflat
    · push_cast
      ring
  · rw [set_mesh_eq_u32 am ps name hne h16]
    have hlook := alookup_cons_self am.nextMeshId
      { name := some name
        primitives := rangesFrom 0 0 ps
        vertex_buf := am.nextBufId
        index_buf := some (am.nextBufId + 1)
        index_format := some IndexFormat.uint32
        vertex_count := totalVerts ps
        index_count := totalIdx ps } am.meshes
    refine ⟨_, am.nextBufId + 1, BufData.idx32 (flatIdxFrom 0 ps),
      (rangesFrom 0 0 ps).map (fun p =>
        { first_index := p.first_index
          index_count := p.index_count
          base_vertex := p.base_vertex
          dynamic_offset := p.material * MAT_ID_SIZE }),
      { first_index := 0 + totalIdx (ps.take k)
        index_count := (ps.get ⟨k, hk⟩).index.length * 3
        base_vertex := ((0 + totalVerts (ps.take k) : Nat) : Int)
        dynamic_offset := 0 * MAT_ID_SIZE },
      hlook, rfl, alookup_cons_self _ _ _, rfl, ?_, ?_, ?_, ?_, ?_, ?_⟩
    · refine drawsOf_single _ am.nextMeshId
        { name := some name
          primitives := rangesFrom 0 0 ps
          vertex_buf := am.nextBufId
          index_buf := some (am.nextBufId + 1)
          index_format := some IndexFormat.uint32
          vertex_count := totalVerts ps
          index_count := totalIdx ps }
        (am.nextBufId + 1) IndexFormat.uint32 ?_ rfl rfl
      exact hlook
    · rw [List.getElem?_map, rangesFrom_getElem ps 0 0 k hk]
      rfl
    · simp
    · simp
    · simpa using hflat
    · push_cast
      ring

/-- A one-triangle primitive with two vertices (so the second primitive of a scene has a nonzero base). -/
def primB : Primitive :=
  { vertex := [vD, vD], index := [{ a := 0, b := 0, c := 1 }], material := none }

set_option maxRecDepth 100000 in
/-- C10 witness: the double-offset theorem applied to a concrete two-primitive mesh, at the second primitive's first stored index. -/
theorem C10_double_base_offset_witness :
    ∃ mesh ib data ds d,
      AssetManager.mesh (AssetManager.set_mesh amD [primD, primB] "w10").2
          (AssetManager.set_mesh amD [primD, primB] "w10").1 = some mesh ∧
      mesh.index_buf = some ib ∧
      alookup (AssetManager.set_mesh amD [primD, primB] "w10").2.buffers ib = some data ∧
      idxContents data = flatIdxFrom 0 [primD, primB] ∧
      drawsOf (AssetManager.set_mesh amD [primD, primB] "w10").2
          [{ mesh_id := (AssetManager.set_mesh amD [primD, primB] "w10").1 }] = some ds ∧
      ds[1]? = some d ∧
      d.first_index = totalIdx (([primD, primB] : List Primitive).take 1) ∧
      d.base_vertex = ((totalVerts (([primD, primB] : List Primitive).take 1) : Nat) : Int) ∧
      (flatIdxFrom 0 [primD, primB])[totalIdx (([primD, primB] : List Primitive).take 1) + 0]? =
        some (totalVerts (([primD, primB] : List Primitive).take 1) +
          (localFlat (([primD, primB] : List Primitive).get ⟨1, by decide⟩)).get
            ⟨0, by decide⟩) ∧
      ((totalVerts (([primD, primB] : List Primitive).take 1) +
          (localFlat (([primD, primB] : List Primitive).get ⟨1, by decide⟩)).get
            ⟨0, by decide⟩ : Nat) : Int) + d.base_vertex =
        (((localFlat (([primD, primB] : List Primitive).get ⟨1, by decide⟩)).get
            ⟨0, by decide⟩ : Nat) : Int) +
          2 * ((totalVerts (([primD, primB] : List Primitive).take 1) : Nat) : Int) :=
  C10_double_base_offset amD [primD, primB] "w10" 1 0 (by decide) (by decide)
